import Mathlib

/-!
Verification of the temporal-expression resolver and idempotent-write guard of
`scheulde_mcp/schedule_save.py`.

The Python source works on `datetime.date`-like values.  We embed the proleptic
Gregorian calendar exactly as CPython's `datetime` module implements it
(`_ymd2ord`, `_ord2ymd`, `weekday`, `calendar.monthrange`), with unbounded
years (the CPython year-9999 ceiling is an artefact outside the resolver's
semantics).  All date arithmetic of the source (`timedelta` addition,
`replace`, `weekday()`) is expressed through these functions.
-/

namespace ScheduleSave

/-- `calendar.isleap` -/
def isLeap (y : Nat) : Bool := decide ((y % 4 = 0 ∧ ¬ y % 100 = 0) ∨ y % 400 = 0)

/-- CPython `_DAYS_IN_MONTH` (non-leap February). -/
def daysInMonthTab (m : Nat) : Nat :=
  match m with
  | 1 => 31 | 2 => 28 | 3 => 31 | 4 => 30 | 5 => 31 | 6 => 30
  | 7 => 31 | 8 => 31 | 9 => 30 | 10 => 31 | 11 => 30 | 12 => 31
  | _ => 0

/-- `_days_in_month(year, month)` with the leap flag made explicit. -/
def daysInMonthL (leap : Bool) (m : Nat) : Nat :=
  if m = 2 ∧ leap then 29 else daysInMonthTab m

/-- CPython `_DAYS_BEFORE_MONTH` table plus the leap correction. -/
def daysBeforeMonthL (leap : Bool) (m : Nat) : Nat :=
  (match m with
   | 1 => 0 | 2 => 31 | 3 => 59 | 4 => 90 | 5 => 120 | 6 => 151
   | 7 => 181 | 8 => 212 | 9 => 243 | 10 => 273 | 11 => 304 | 12 => 334
   | _ => 0)
  + (if 2 < m ∧ leap then 1 else 0)

/-- CPython `_days_before_year`. -/
def daysBeforeYear (y : Nat) : Nat :=
  (y - 1) * 365 + (y - 1) / 4 - (y - 1) / 100 + (y - 1) / 400

structure Date where
  year : Nat
  month : Nat
  day : Nat
deriving Repr, DecidableEq

/-- `calendar.monthrange(y, m).1` — days in the month. -/
def daysInMonth (y m : Nat) : Nat := daysInMonthL (isLeap y) m

/-- Validity constraint enforced by `datetime.date` (year ceiling dropped). -/
def Date.valid (x : Date) : Prop :=
  1 ≤ x.year ∧ 1 ≤ x.month ∧ x.month ≤ 12 ∧ 1 ≤ x.day ∧ x.day ≤ daysInMonth x.year x.month

instance (x : Date) : Decidable x.valid := by unfold Date.valid; infer_instance

/-- CPython `_ymd2ord`: proleptic Gregorian ordinal, `0001-01-01` is day 1. -/
def toOrdinal (x : Date) : Nat :=
  daysBeforeYear x.year + daysBeforeMonthL (isLeap x.year) x.month + x.day

/-- The month-estimation step of CPython `_ord2ymd`: from a 0-based day
offset `r` within a (non-last-day) year, recover `(month, day)`. -/
def findMonthDay (leap : Bool) (r : Nat) : Nat × Nat :=
  let mo := (r + 50) / 32
  let preceding := daysBeforeMonthL leap mo
  if preceding > r then
    let mo' := mo - 1
    let preceding' := preceding - daysInMonthL leap mo'
    (mo', r - preceding' + 1)
  else
    (mo, r - preceding + 1)

/-- The year/day-of-year split of CPython `_ord2ymd`, after the divmod chain:
`a` = number of complete 400-year cycles, `b` centuries, `c` 4-year cycles,
`e` years, `r` the remaining 0-based day of year. -/
def ord2ymdAux (a b c e r : Nat) : Date :=
  if e = 4 ∨ b = 4 then
    ⟨400 * a + 100 * b + 4 * c + e, 12, 31⟩
  else
    ⟨400 * a + 100 * b + 4 * c + e + 1,
     (findMonthDay (decide (e = 3 ∧ (¬ c = 24 ∨ b = 3))) r).1,
     (findMonthDay (decide (e = 3 ∧ (¬ c = 24 ∨ b = 3))) r).2⟩

/-- CPython `_ord2ymd`. -/
def ord2ymd (N : Nat) : Date :=
  ord2ymdAux ((N - 1) / 146097)
    ((N - 1) % 146097 / 36524)
    ((N - 1) % 146097 % 36524 / 1461)
    ((N - 1) % 146097 % 36524 % 1461 / 365)
    ((N - 1) % 146097 % 36524 % 1461 % 365)

/-- `date.weekday()`: CPython computes `(toordinal() + 6) % 7`, 0 = Monday. -/
def Date.weekday (x : Date) : Nat := (toOrdinal x + 6) % 7

/-- `d + timedelta(days = k)` for `k ≥ 0`. -/
def addDays (x : Date) (k : Nat) : Date := ord2ymd (toOrdinal x + k)

/-- `d - timedelta(days = k)` (used only where the result stays in range). -/
def subDays (x : Date) (k : Nat) : Date := ord2ymd (toOrdinal x - k)

set_option maxRecDepth 4000 in
theorem findMonthDay_spec : ∀ leap : Bool, ∀ r : Nat, r < 365 →
    1 ≤ (findMonthDay leap r).1 ∧ (findMonthDay leap r).1 ≤ 12 ∧
    1 ≤ (findMonthDay leap r).2 ∧
    (findMonthDay leap r).2 ≤ daysInMonthL leap (findMonthDay leap r).1 ∧
    daysBeforeMonthL leap (findMonthDay leap r).1 + (findMonthDay leap r).2 = r + 1 := by
  decide

theorem dbY_decomp (A B C E : Nat) (hB : B ≤ 3) (hC : C ≤ 24) (hE : E ≤ 3) :
    daysBeforeYear (400 * A + 100 * B + 4 * C + E + 1) =
      146097 * A + 36524 * B + 1461 * C + 365 * E := by
  unfold daysBeforeYear
  omega

theorem dimL_12 : ∀ L : Bool, daysInMonthL L 12 = 31 := by decide

theorem ord2ymdAux_spec (N a b c e r : Nat) (h : 1 ≤ N)
    (ha : a = (N - 1) / 146097) (hb : b = (N - 1) % 146097 / 36524)
    (hc : c = (N - 1) % 146097 % 36524 / 1461)
    (he : e = (N - 1) % 146097 % 36524 % 1461 / 365)
    (hr : r = (N - 1) % 146097 % 36524 % 1461 % 365) :
    toOrdinal (ord2ymdAux a b c e r) = N ∧ (ord2ymdAux a b c e r).valid := by
  unfold ord2ymdAux
  split
  · rename_i hcase
    have hleap : isLeap (400 * a + 100 * b + 4 * c + e) = true := by
      unfold isLeap
      rw [decide_eq_true_iff]
      omega
    constructor
    · show daysBeforeYear (400 * a + 100 * b + 4 * c + e) +
        daysBeforeMonthL (isLeap (400 * a + 100 * b + 4 * c + e)) 12 + 31 = N
      rw [hleap]
      have h12 : daysBeforeMonthL true 12 = 335 := rfl
      rw [h12]
      rcases hcase with hE | hB
      · have hY : 400 * a + 100 * b + 4 * c + e = 400 * a + 100 * b + 4 * c + 3 + 1 := by
          omega
        rw [hY, dbY_decomp a b c 3 (by omega) (by omega) (by omega)]
        omega
      · have hY : 400 * a + 100 * b + 4 * c + e = 400 * a + 100 * 3 + 4 * 24 + 3 + 1 := by
          omega
        rw [hY, dbY_decomp a 3 24 3 (by omega) (by omega) (by omega)]
        omega
    · unfold Date.valid
      dsimp only
      refine ⟨by omega, by omega, by omega, by omega, ?_⟩
      unfold daysInMonth
      rw [dimL_12]
  · rename_i hcase
    push_neg at hcase
    have hb3 : b ≤ 3 := by omega
    have hc24 : c ≤ 24 := by omega
    have he3 : e ≤ 3 := by omega
    have hre : r < 365 := by omega
    have hspec := findMonthDay_spec (decide (e = 3 ∧ (¬ c = 24 ∨ b = 3))) r hre
    have hleap : isLeap (400 * a + 100 * b + 4 * c + e + 1) =
        decide (e = 3 ∧ (¬ c = 24 ∨ b = 3)) := by
      unfold isLeap
      rw [decide_eq_decide]
      omega
    constructor
    · show daysBeforeYear (400 * a + 100 * b + 4 * c + e + 1) +
        daysBeforeMonthL (isLeap (400 * a + 100 * b + 4 * c + e + 1))
          (findMonthDay (decide (e = 3 ∧ (¬ c = 24 ∨ b = 3))) r).1 +
        (findMonthDay (decide (e = 3 ∧ (¬ c = 24 ∨ b = 3))) r).2 = N
      rw [hleap, dbY_decomp a b c e hb3 hc24 he3]
      have hsum := hspec.2.2.2.2
      omega
    · unfold Date.valid
      dsimp only
      refine ⟨by omega, hspec.1, hspec.2.1, hspec.2.2.1, ?_⟩
      unfold daysInMonth
      rw [hleap]
      exact hspec.2.2.2.1

theorem toOrdinal_ord2ymd (N : Nat) (h : 1 ≤ N) : toOrdinal (ord2ymd N) = N := by
  unfold ord2ymd
  exact (ord2ymdAux_spec N _ _ _ _ _ h rfl rfl rfl rfl rfl).1

theorem ord2ymd_valid (N : Nat) (h : 1 ≤ N) : (ord2ymd N).valid := by
  unfold ord2ymd
  exact (ord2ymdAux_spec N _ _ _ _ _ h rfl rfl rfl rfl rfl).2

theorem toOrdinal_pos (x : Date) (h : x.valid) : 1 ≤ toOrdinal x := by
  unfold toOrdinal
  have := h.2.2.2.1
  omega

theorem toOrdinal_addDays (x : Date) (k : Nat) (h : 1 ≤ toOrdinal x) :
    toOrdinal (addDays x k) = toOrdinal x + k := by
  unfold addDays
  exact toOrdinal_ord2ymd _ (by omega)

theorem addDays_valid (x : Date) (k : Nat) (h : 1 ≤ toOrdinal x) : (addDays x k).valid :=
  ord2ymd_valid _ (by omega)

theorem weekday_lt (x : Date) : x.weekday < 7 := Nat.mod_lt _ (by omega)

theorem weekday_le_sub (x : Date) (h : 1 ≤ toOrdinal x) : x.weekday + 1 ≤ toOrdinal x := by
  unfold Date.weekday
  omega

theorem toOrdinal_subDays (x : Date) (k : Nat) (h : k + 1 ≤ toOrdinal x) :
    toOrdinal (subDays x k) = toOrdinal x - k := by
  unfold subDays
  exact toOrdinal_ord2ymd _ (by omega)

/-! ### String utilities

Python `str.strip`, CPython `_strptime` for the `%H:%M` and `%Y-%m-%d`
formats, and `strftime` zero-padded numeric formatting.  Characters are
handled as `List Char`; only the ASCII whitespace set of `str.strip` is
modelled (the source never feeds non-ASCII whitespace). -/

def isPySpace (c : Char) : Bool :=
  c = ' ' ∨ c = '\t' ∨ c = '\n' ∨ c = '\r' ∨ c = '\x0b' ∨ c = '\x0c'

/-- Remove trailing whitespace. -/
def rstripList : List Char → List Char
  | [] => []
  | c :: cs => if rstripList cs = [] ∧ isPySpace c then [] else c :: rstripList cs

/-- Python `str.strip()`. -/
def stripList (l : List Char) : List Char := rstripList (l.dropWhile isPySpace)

def pyStrip (s : String) : String := ⟨stripList s.data⟩

/-- Python `str.upper()` (ASCII case map; the labels fed to it carry no
cased non-ASCII characters). -/
def pyUpper (s : String) : String := ⟨s.data.map Char.toUpper⟩

theorem rstripList_head (c : Char) (cs : List Char) :
    rstripList (c :: cs) = [] ∨ ∃ t, rstripList (c :: cs) = c :: t := by
  unfold rstripList
  split
  · exact Or.inl rfl
  · exact Or.inr ⟨_, rfl⟩

theorem rstripList_idem (l : List Char) : rstripList (rstripList l) = rstripList l := by
  induction l with
  | nil => rfl
  | cons c cs ih =>
    by_cases h : rstripList cs = [] ∧ isPySpace c
    · simp [rstripList, h]
    · have hstep : rstripList (c :: cs) = c :: rstripList cs := by
        simp [rstripList, h]
      rw [hstep]
      rcases Decidable.em (rstripList cs = []) with hnil | hne
      · have : ¬ isPySpace c := fun hc => h ⟨hnil, hc⟩
        simp [rstripList, hnil, ih, this]
      · have : ¬ (rstripList (rstripList cs) = [] ∧ isPySpace c) := by
          rw [ih]; exact fun hc => hne hc.1
        simp [rstripList, this, ih, hne]

theorem dropWhile_head_not (p : Char → Bool) (l : List Char) :
    l.dropWhile p = [] ∨ ∃ a t, l.dropWhile p = a :: t ∧ ¬ p a := by
  induction l with
  | nil => exact Or.inl rfl
  | cons c cs ih =>
    by_cases h : p c
    · simpa [List.dropWhile, h] using ih
    · exact Or.inr ⟨c, cs, by simp [List.dropWhile, h], h⟩

theorem dropWhile_of_head_not (p : Char → Bool) (l : List Char)
    (h : l = [] ∨ ∃ a t, l = a :: t ∧ ¬ p a) : l.dropWhile p = l := by
  rcases h with h | ⟨a, t, rfl, ha⟩
  · simp [h]
  · simp [List.dropWhile, ha]

theorem stripList_idem (l : List Char) : stripList (stripList l) = stripList l := by
  unfold stripList
  set A := l.dropWhile isPySpace with hA
  have hdw : (rstripList A).dropWhile isPySpace = rstripList A := by
    apply dropWhile_of_head_not
    rcases dropWhile_head_not isPySpace l with hnil | ⟨a, t, heq, ha⟩
    · rw [← hA] at hnil
      rw [hnil]
      exact Or.inl rfl
    · rw [← hA] at heq
      rw [heq]
      rcases rstripList_head a t with h0 | ⟨t', ht'⟩
      · exact Or.inl h0
      · exact Or.inr ⟨a, t', ht', ha⟩
  rw [hdw, rstripList_idem]

theorem pyStrip_idem (s : String) : pyStrip (pyStrip s) = pyStrip s := by
  unfold pyStrip
  rw [stripList_idem]

/-- Digit character for a value `< 10`. -/
def digitChar (d : Nat) : Char := Char.ofNat (48 + d % 10)

def digitVal (c : Char) : Nat := c.toNat - 48

/-- Decimal digits, most significant first, with structural fuel recursion
(the fuel `n + 1` always suffices since `n / 10 < n` for `n ≥ 10`). -/
def natDigitsGo : Nat → Nat → List Char → List Char
  | 0, _, acc => acc
  | fuel + 1, n, acc =>
    if n < 10 then digitChar n :: acc
    else natDigitsGo fuel (n / 10) (digitChar (n % 10) :: acc)

/-- Decimal digits of `n`, most significant first (CPython `str(int)`). -/
def natDigits (n : Nat) : List Char := natDigitsGo (n + 1) n []

/-- `strftime` zero-padding to width `w`. -/
def padDigits (w n : Nat) : List Char :=
  List.replicate (w - (natDigits n).length) '0' ++ natDigits n

/-- `datetime.strftime("%Y-%m-%d")`. -/
def toDateString (x : Date) : String :=
  ⟨padDigits 4 x.year ++ '-' :: (padDigits 2 x.month ++ '-' :: padDigits 2 x.day)⟩

/-- `time.strftime("%H:%M")`. -/
def formatHM (h m : Nat) : String := ⟨padDigits 2 h ++ ':' :: padDigits 2 m⟩

/-- Parse one or (greedily) two ASCII digits, CPython `_strptime` style for a
field whose following pattern character is a non-digit (as in `%Y-%m-%d` and
`%H:%M`, where greedy matching agrees with the regex alternations). -/
def take2Digits : List Char → Option (Nat × List Char)
  | [] => none
  | c1 :: rest =>
    if c1.isDigit then
      match rest with
      | c2 :: rest2 =>
        if c2.isDigit then some (10 * digitVal c1 + digitVal c2, rest2)
        else some (digitVal c1, rest)
      | [] => some (digitVal c1, [])
    else none

/-- `datetime.strptime(s, "%H:%M")`: 1–2 digit hour in [0,23], `:`,
1–2 digit minute in [0,59], end of string. -/
def parseHHMM (s : String) : Option (Nat × Nat) :=
  match take2Digits s.data with
  | some (h, rest) =>
    match rest with
    | c :: rest2 =>
      if c = ':' then
        match take2Digits rest2 with
        | some (m, rest3) =>
          match rest3 with
          | [] => if h ≤ 23 ∧ m ≤ 59 then some (h, m) else none
          | _ :: _ => none
        | none => none
      else none
    | [] => none
  | none => none

/-- `_ensure_hhmm` succeeds exactly when `strptime(s, "%H:%M")` does. -/
def ensureHHMM (s : String) : Bool := (parseHHMM s).isSome

/-- `datetime.strptime(s, "%Y-%m-%d")`: exactly 4 digit year, then month and
day (1–2 digits each), with `datetime`'s calendar validation. -/
def parseDateYMD (s : String) : Option Date :=
  match s.data with
  | y1 :: y2 :: y3 :: y4 :: c5 :: rest =>
    if y1.isDigit ∧ y2.isDigit ∧ y3.isDigit ∧ y4.isDigit ∧ c5 = '-' then
      match take2Digits rest with
      | some (m, rest') =>
        match rest' with
        | c6 :: rest2 =>
          if c6 = '-' then
            match take2Digits rest2 with
            | some (d, rest3) =>
              match rest3 with
              | [] =>
                if 1 ≤ 1000 * digitVal y1 + 100 * digitVal y2 + 10 * digitVal y3 +
                      digitVal y4 ∧
                    1 ≤ m ∧ m ≤ 12 ∧ 1 ≤ d ∧
                    d ≤ daysInMonth (1000 * digitVal y1 + 100 * digitVal y2 +
                      10 * digitVal y3 + digitVal y4) m then
                  some ⟨1000 * digitVal y1 + 100 * digitVal y2 + 10 * digitVal y3 +
                    digitVal y4, m, d⟩
                else none
              | _ :: _ => none
            | none => none
          else none
        | [] => none
      | none => none
    else none
  | _ => none

/-! ### Token model

JSON token dicts are modelled with typed optional fields.  Python truthiness
of `token.get(k)` (`None`, `0` and `""` are falsy) is captured by `truthyI` /
`truthyS`.  The `value` key of a time token holds a string for `ABS` and a
number for `AFTER_N_HOUR`; the two uses are kept as separate fields. -/

structure DateToken where
  type : Option String := none
  day : Option Int := none
  n : Option Int := none
  value : Option Int := none
  weekday : Option String := none
  anchor : Option String := none
deriving Repr, DecidableEq

structure TimeToken where
  type : Option String := none
  value : Option String := none
  slot : Option String := none
  n : Option Int := none
  valueNum : Option Int := none
deriving Repr, DecidableEq

def truthyI : Option Int → Bool
  | none => false
  | some k => k ≠ 0

def truthyS : Option String → Bool
  | none => false
  | some s => s ≠ ""

/-- `token.get("n") or token.get("value") or 0`. -/
def readNV (n v : Option Int) : Int :=
  if truthyI n then n.getD 0 else if truthyI v then v.getD 0 else 0

/-- `(token.get("type") or "").upper()`. -/
def normType (t : Option String) : String :=
  pyUpper (if truthyS t then t.getD "" else "")

def WEEKDAY_KO : List String := ["월", "화", "수", "목", "금", "토", "일"]

/-- `_weekday_to_num`: Korean single-char labels checked first, then
upper-cased English three-letter abbreviations. -/
def weekdayToNum (label : String) : Except String Nat :=
  if pyStrip label = "월" then .ok 0
  else if pyStrip label = "화" then .ok 1
  else if pyStrip label = "수" then .ok 2
  else if pyStrip label = "목" then .ok 3
  else if pyStrip label = "금" then .ok 4
  else if pyStrip label = "토" then .ok 5
  else if pyStrip label = "일" then .ok 6
  else if pyUpper (pyStrip label) = "MON" then .ok 0
  else if pyUpper (pyStrip label) = "TUE" then .ok 1
  else if pyUpper (pyStrip label) = "WED" then .ok 2
  else if pyUpper (pyStrip label) = "THU" then .ok 3
  else if pyUpper (pyStrip label) = "FRI" then .ok 4
  else if pyUpper (pyStrip label) = "SAT" then .ok 5
  else if pyUpper (pyStrip label) = "SUN" then .ok 6
  else .error ("weekday parse failed: " ++ pyStrip label)

/-- `now.replace(day=d)`: `datetime` validates the day against the month. -/
def replaceDay (x : Date) (d : Int) : Except String Date :=
  if 1 ≤ d ∧ d ≤ (daysInMonth x.year x.month : Int) then .ok ⟨x.year, x.month, d.toNat⟩
  else .error "day is out of range for month"

/-- `now.replace(year=y, month=m, day=d)` with `datetime`'s validation
(year ceiling dropped as in the calendar model). -/
def replaceYMD (_x : Date) (y m : Nat) (d : Int) : Except String Date :=
  if 1 ≤ y ∧ 1 ≤ m ∧ m ≤ 12 ∧ 1 ≤ d ∧ d ≤ (daysInMonth y m : Int) then
    .ok ⟨y, m, d.toNat⟩
  else .error "replace out of range"

/-- `_roll_to_week_anchor`. -/
def rollToWeekAnchor (base : Date) (anchor : String) (n : Option Int) : Except String Date :=
  if pyUpper (if anchor = "" then "THIS_WEEK" else anchor) = "THIS_WEEK" then .ok base
  else if pyUpper (if anchor = "" then "THIS_WEEK" else anchor) = "NEXT_WEEK" then
    .ok (addDays base 7)
  else if pyUpper (if anchor = "" then "THIS_WEEK" else anchor) = "AFTER_N_WEEK" then
    .ok (addDays base (7 * (match n with | none => (1 : Int) | some v => v).natAbs))
  else .error ("Unknown anchor: " ++ pyUpper (if anchor = "" then "THIS_WEEK" else anchor))

/-- The day-of-month `first_occurrence + (n-1)*7` computed by
`_nth_weekday_of_month`. -/
def nthWeekdayDay (base : Date) (n : Int) (wd : Nat) : Int :=
  ((1 + (wd + 7 - Date.weekday ⟨base.year, base.month, 1⟩) % 7 : Nat) : Int) + (n - 1) * 7

/-- `_nth_weekday_of_month` (`base` carries the target year/month; the code
calls it with day 1). -/
def nthWeekdayOfMonth (base : Date) (n : Int) (wd : Nat) : Except String Date :=
  if nthWeekdayDay base n wd > (daysInMonth base.year base.month : Int) then
    .error "n-th weekday does not exist this month"
  else replaceDay base (nthWeekdayDay base n wd)

/-- `base - timedelta(days=base.weekday())` followed by
`+ timedelta(days=weekday)`: relocate inside the Monday-started week. -/
def toWeekday (base : Date) (wd : Nat) : Date := addDays (subDays base base.weekday) wd

/-- The target year/month of `NEXT_MONTH` (rolling December to January). -/
def nextMonthY (now : Date) : Nat := if now.month + 1 = 13 then now.year + 1 else now.year

def nextMonthM (now : Date) : Nat := if now.month + 1 = 13 then 1 else now.month + 1

/-- `resolve_date_token`. -/
def resolveDateToken (now : Date) (tok : DateToken) : Except String Date :=
  if normType tok.type = "" then .error "date_token.type required"
  else if normType tok.type = "THIS_MONTH" then
    .ok (if truthyI tok.day then
      match replaceDay now (tok.day.getD 0) with
      | .ok r => r
      | .error _ => now
    else now)
  else if normType tok.type = "NEXT_MONTH" then
    replaceYMD now (nextMonthY now) (nextMonthM now)
      (min (if truthyI tok.day then tok.day.getD 0 else (now.day : Int))
        (daysInMonth (nextMonthY now) (nextMonthM now) : Int))
  else if normType tok.type = "SAME_MONTH_DATA" then
    match tok.day with
    | none => .error "int() argument must not be None"
    | some d => replaceDay now d
  else if normType tok.type = "AFTER_N_DAY" then
    .ok (addDays now (readNV tok.n tok.value).natAbs)
  else if normType tok.type = "NEXT_WEEK" ∨ normType tok.type = "AFTER_N_WEEK" ∨
      normType tok.type = "THIS_WEEK" then
    match rollToWeekAnchor now (normType tok.type) tok.n with
    | .error e => .error e
    | .ok base =>
      if truthyS tok.weekday then
        match weekdayToNum (tok.weekday.getD "") with
        | .error e => .error e
        | .ok wd => .ok (toWeekday base wd)
      else .ok base
  else if normType tok.type = "WEEKDAY_OF" then
    match weekdayToNum (tok.weekday.getD "") with
    | .error e => .error e
    | .ok wd =>
      match rollToWeekAnchor now
        (if truthyS tok.anchor then tok.anchor.getD "" else "THIS_WEEK") tok.n with
      | .error e => .error e
      | .ok base => .ok (toWeekday base wd)
  else if normType tok.type = "NTH_WEEKDAY_OF_MONTH" then
    match (if truthyI tok.n then tok.n else tok.value) with
    | none => .error "int() argument must not be None"
    | some nv =>
      match weekdayToNum (tok.weekday.getD "") with
      | .error e => .error e
      | .ok wd =>
        nthWeekdayOfMonth
          (if pyUpper (if truthyS tok.anchor then tok.anchor.getD "" else "THIS_MONTH") =
              "NEXT_MONTH" then
            ⟨nextMonthY now, nextMonthM now, 1⟩
          else ⟨now.year, now.month, 1⟩) nv wd
  else if normType tok.type = "END_OF_MONTH" then
    .ok ⟨now.year, now.month, daysInMonth now.year now.month⟩
  else if normType tok.type = "BEGIN_OF_MONTH" then
    .ok ⟨now.year, now.month, 1⟩
  else .error ("unknown date_token.type: " ++ normType tok.type)

structure DateTime where
  date : Date
  hour : Nat
  minute : Nat
deriving Repr, DecidableEq

def DateTime.valid (x : DateTime) : Prop :=
  x.date.valid ∧ x.hour ≤ 23 ∧ x.minute ≤ 59

instance (x : DateTime) : Decidable x.valid := by unfold DateTime.valid; infer_instance

/-- `resolve_time_token`; `none` for the token models a missing or falsy
(empty) `time_token` dict.  Note the final silent `return None` for an
unrecognized type. -/
def resolveTimeToken (now : DateTime) (tok : Option TimeToken) : Except String (Option String) :=
  match tok with
  | none => .ok none
  | some tk =>
    if normType tk.type = "" then .ok none
    else if normType tk.type = "ABS" then
      if ensureHHMM (tk.value.getD "") then .ok (some (tk.value.getD ""))
      else .error ("time data " ++ tk.value.getD "" ++ " does not match format %H:%M")
    else if normType tk.type = "SLOT" then
      if pyUpper (if truthyS tk.slot then tk.slot.getD "" else "") = "MORNING" then
        .ok (some "09:00")
      else if pyUpper (if truthyS tk.slot then tk.slot.getD "" else "") = "AFTERNOON" then
        .ok (some "15:00")
      else if pyUpper (if truthyS tk.slot then tk.slot.getD "" else "") = "EVENING" then
        .ok (some "19:00")
      else if pyUpper (if truthyS tk.slot then tk.slot.getD "" else "") = "NIGHT" then
        .ok (some "21:00")
      else .error ("unknown slot: " ++ pyUpper (if truthyS tk.slot then tk.slot.getD "" else ""))
    else if normType tk.type = "AFTER_N_HOUR" then
      .ok (some (formatHM ((now.hour + (readNV tk.n tk.valueNum).natAbs) % 24) now.minute))
    else .ok none

/-! ### Deduplication cache

`_recent_keys` is a Python dict `key -> float timestamp`; it is modelled as
an insertion-ordered association list, the float clock as `ℚ`. -/

def DEDUP_TTL_SEC : ℚ := 90

abbrev DedupMap := List (String × ℚ)

/-- The purge sweep at the top of `_is_duplicate`: drop every entry with
`now_ts - ts > DEDUP_TTL_SEC`. -/
def purgeOld (m : DedupMap) (nowTs : ℚ) : DedupMap :=
  m.filter (fun kv => decide (¬ nowTs - kv.2 > DEDUP_TTL_SEC))

def lookupKey (m : DedupMap) (k : String) : Option ℚ :=
  (m.find? (fun kv => kv.1 == k)).map (·.2)

/-- Dict assignment `m[k] = v` (update in place, else append). -/
def setKey (m : DedupMap) (k : String) (v : ℚ) : DedupMap :=
  match m with
  | [] => [(k, v)]
  | kv :: rest => if kv.1 == k then (k, v) :: rest else kv :: setKey rest k v

/-- `_is_duplicate`: purge, then report a hit without refreshing its
timestamp, otherwise record `key -> now_ts`. -/
def isDuplicate (m : DedupMap) (key : String) (nowTs : ℚ) :
    (Bool × Option ℚ) × DedupMap :=
  match lookupKey (purgeOld m nowTs) key with
  | some ts =>
    if nowTs - ts ≤ DEDUP_TTL_SEC then ((true, some ts), purgeOld m nowTs)
    else ((false, none), setKey (purgeOld m nowTs) key nowTs)
  | none => ((false, none), setKey (purgeOld m nowTs) key nowTs)

/-- `time_str or ''`. -/
def timeOrEmpty (t : Option String) : String :=
  if truthyS t then t.getD "" else ""

/-- `_make_fingerprint` builds `f"{content}|{date}|{time_str or ''}"` and
hashes it.  The SHA-256 digest is modelled as the (injective) encoded base
string itself; fingerprint equality in the model coincides with digest
equality up to hash collisions. -/
def makeFingerprint (content date : String) (timeStr : Option String) : String :=
  content ++ "|" ++ date ++ "|" ++ timeOrEmpty timeStr

/-! ### The `schedule_save` handler -/

structure WhenSpec where
  mode : Option String := none
  date : Option String := none
  time : Option String := none
  date_token : Option DateToken := none
  time_token : Option TimeToken := none
deriving Repr, DecidableEq

/-- The request arguments reaching `handle_schedule_save`.  `whenIsDict`
models the `isinstance(when, dict)` check (a missing `when` defaults to the
empty dict, which is a dict).  `anchor_now` is not modelled: the handler
below receives the already-resolved anchor `now` (section 4.1 of the spec is
outside the verified claims). -/
structure SaveArgs where
  content : String := ""
  whenIsDict : Bool := true
  when : WhenSpec := {}
  idempotency_key : Option String := none
deriving Repr, DecidableEq

structure Schedule where
  date : String
  day_of_week : String
  time : Option String
  content : String
  created_at : String
deriving Repr, DecidableEq

structure ServerState where
  recentKeys : DedupMap
  schedules : List Schedule
deriving Repr, DecidableEq

inductive SaveOutcome where
  /-- any `❌`-style rejection (shape, format or token error) -/
  | invalid (msg : String)
  /-- the duplicate message, carrying `key[:8]`, the resolved date/time and
  the content it echoes -/
  | duplicate (keyTrunc date : String) (time : Option String) (content : String)
  /-- the success message: the stored schedule, its row id and the total
  count reported by the store -/
  | saved (s : Schedule) (rowId total : Nat)
deriving Repr, DecidableEq

def WEEKDAY_KO_AT (i : Nat) : String := WEEKDAY_KO.getD i ""

/-- `_weekday_ko`. -/
def weekdayKo (x : Date) : String := WEEKDAY_KO_AT x.weekday

/-- The date/time resolution part of `handle_schedule_save` (lines choosing
between ABSOLUTE literal validation and TOKEN resolution), returning the
`date` string used for the fingerprint, the optional time string, and the
`dt_date` value. -/
def resolveWhen (mode : String) (w : WhenSpec) (now : DateTime) :
    Except String (String × Option String × Date) :=
  if mode = "ABSOLUTE" then
    if pyStrip (w.date.getD "") = "" then .error "ABSOLUTE 모드에는 date가 필요합니다"
    else
      match parseDateYMD (pyStrip (w.date.getD "")) with
      | none => .error "형식 오류: time data does not match format %Y-%m-%d"
      | some dt =>
        if pyStrip (w.time.getD "") = "" then .ok (pyStrip (w.date.getD ""), none, dt)
        else if ensureHHMM (pyStrip (w.time.getD "")) then
          .ok (pyStrip (w.date.getD ""), some (pyStrip (w.time.getD "")), dt)
        else .error "형식 오류: time data does not match format %H:%M"
  else
    match resolveDateToken now.date (w.date_token.getD {}) with
    | .error e => .error e
    | .ok dt =>
      match resolveTimeToken now w.time_token with
      | .error e => .error e
      | .ok timeStr => .ok (toDateString dt, timeStr, dt)

/-- `(when.get("mode") or "").upper()`. -/
def modeOf (w : WhenSpec) : String :=
  pyUpper (if truthyS w.mode then w.mode.getD "" else "")

/-- `key = idem or fingerprint`. -/
def dedupKey (idem : Option String) (fingerprint : String) : String :=
  if truthyS idem then idem.getD "" else fingerprint

/-- `handle_schedule_save`.  `now` is the resolved anchor, `nowTs` the
`time.time()` clock read inside `_is_duplicate`, `createdAt` the
`datetime.utcnow()` stamp. -/
def handleScheduleSave (st : ServerState) (a : SaveArgs) (now : DateTime) (nowTs : ℚ)
    (createdAt : String) : SaveOutcome × ServerState :=
  if pyStrip a.content = "" ∨ ¬ a.whenIsDict then
    (.invalid "content와 when이 필요합니다", st)
  else if modeOf a.when ≠ "ABSOLUTE" ∧ modeOf a.when ≠ "TOKEN" then
    (.invalid "when.mode는 ABSOLUTE 또는 TOKEN만 허용", st)
  else
    match resolveWhen (modeOf a.when) a.when now with
    | .error e => (.invalid e, st)
    | .ok (date, timeStr, dtDate) =>
      if (isDuplicate st.recentKeys
          (dedupKey a.idempotency_key (makeFingerprint (pyStrip a.content) date timeStr))
          nowTs).1.1 then
        (.duplicate
          ((dedupKey a.idempotency_key
            (makeFingerprint (pyStrip a.content) date timeStr)).take 8)
          date timeStr (pyStrip a.content),
         { st with recentKeys := (isDuplicate st.recentKeys
             (dedupKey a.idempotency_key
               (makeFingerprint (pyStrip a.content) date timeStr)) nowTs).2 })
      else
        (.saved
          { date := toDateString dtDate
            day_of_week := weekdayKo dtDate
            time := timeStr
            content := pyStrip a.content
            created_at := createdAt }
          (st.schedules.length + 1) (st.schedules.length + 1),
         { recentKeys := (isDuplicate st.recentKeys
             (dedupKey a.idempotency_key
               (makeFingerprint (pyStrip a.content) date timeStr)) nowTs).2
           schedules := st.schedules ++
             [{ date := toDateString dtDate
                day_of_week := weekdayKo dtDate
                time := timeStr
                content := pyStrip a.content
                created_at := createdAt }] })

/-! ### Dedup cache lemmas -/

theorem lookupKey_nil (k : String) : lookupKey [] k = none := rfl

theorem lookupKey_filter_none (m : DedupMap) (k : String) (p : String × ℚ → Bool)
    (h : lookupKey m k = none) : lookupKey (m.filter p) k = none := by
  induction m with
  | nil => rfl
  | cons kv rest ih =>
    unfold lookupKey at h ⊢
    rw [List.find?_cons] at h
    rcases hk : (kv.1 == k) with _ | _
    · rw [hk] at h
      rw [List.filter_cons]
      split
      · rw [List.find?_cons, hk]
        exact ih h
      · exact ih h
    · rw [hk] at h
      simp at h

theorem lookupKey_purge_none (m : DedupMap) (k : String) (t : ℚ)
    (h : lookupKey m k = none) : lookupKey (purgeOld m t) k = none :=
  lookupKey_filter_none m k _ h

theorem setKey_of_lookup_none (m : DedupMap) (k : String) (v : ℚ)
    (h : lookupKey m k = none) : setKey m k v = m ++ [(k, v)] := by
  induction m with
  | nil => rfl
  | cons kv rest ih =>
    unfold lookupKey at h
    rw [List.find?_cons] at h
    rcases hk : (kv.1 == k) with _ | _
    · rw [hk] at h
      simp only [setKey, hk, Bool.false_eq_true, if_false, List.cons_append,
        List.cons.injEq, true_and]
      exact ih h
    · rw [hk] at h
      simp at h

theorem lookupKey_append_of_none (A B : DedupMap) (k : String)
    (h : lookupKey A k = none) : lookupKey (A ++ B) k = lookupKey B k := by
  induction A with
  | nil => rfl
  | cons kv rest ih =>
    unfold lookupKey at h ⊢
    rw [List.find?_cons] at h
    rcases hk : (kv.1 == k) with _ | _
    · rw [hk] at h
      rw [List.cons_append, List.find?_cons, hk]
      exact ih h
    · rw [hk] at h
      simp at h

theorem purgeOld_append (A B : DedupMap) (t : ℚ) :
    purgeOld (A ++ B) t = purgeOld A t ++ purgeOld B t := by
  unfold purgeOld
  rw [List.filter_append]

theorem purgeOld_single_keep (k : String) (ts t : ℚ) (h : t - ts ≤ DEDUP_TTL_SEC) :
    purgeOld [(k, ts)] t = [(k, ts)] := by
  unfold purgeOld
  rw [List.filter_cons]
  rw [if_pos (decide_eq_true_iff.mpr (not_lt.mpr h))]
  rfl

theorem purgeOld_single_drop (k : String) (ts t : ℚ) (h : DEDUP_TTL_SEC < t - ts) :
    purgeOld [(k, ts)] t = [] := by
  unfold purgeOld
  rw [List.filter_cons]
  rw [if_neg]
  · rfl
  · simp only [decide_eq_true_iff, not_not]
    exact h

theorem lookupKey_single (k : String) (ts : ℚ) : lookupKey [(k, ts)] k = some ts := by
  unfold lookupKey
  rw [List.find?_cons]
  simp

/-- C1 core: behaviour of `_is_duplicate` around one accepted key.  `state1`
is the cache right after the accepted call at `t0`. -/
theorem isDuplicate_state1 (m₀ : DedupMap) (key : String) (t0 : ℚ)
    (hfresh : lookupKey (purgeOld m₀ t0) key = none) :
    isDuplicate m₀ key t0 = ((false, none), purgeOld m₀ t0 ++ [(key, t0)]) := by
  unfold isDuplicate
  rw [hfresh, setKey_of_lookup_none _ _ _ hfresh]

/-- With `key` recorded at `ts` behind any `key`-free prefix `A`, a later
`_is_duplicate` call reports a hit exactly within the TTL window. -/
theorem isDuplicate_entry (A : DedupMap) (key : String) (ts t : ℚ)
    (habsA : lookupKey A key = none) :
    (isDuplicate (A ++ [(key, ts)]) key t).1.1 = true ↔
      t - ts ≤ DEDUP_TTL_SEC := by
  have habs : lookupKey (purgeOld A t) key = none :=
    lookupKey_purge_none _ _ _ habsA
  unfold isDuplicate
  rw [purgeOld_append]
  rcases le_or_lt (t - ts) DEDUP_TTL_SEC with hle | hgt
  · rw [purgeOld_single_keep _ _ _ hle,
      lookupKey_append_of_none _ _ _ habs, lookupKey_single]
    simp [hle]
  · rw [purgeOld_single_drop _ _ _ hgt, List.append_nil, habs]
    constructor
    · intro hc
      exact absurd hc (by simp)
    · intro hle
      exact absurd hle (not_le.mpr hgt)

/-- A duplicate hit keeps the stored timestamp: the resulting cache still
maps `key` to the original `ts`, not to the hit's time. -/
theorem isDuplicate_entry_hit (A : DedupMap) (key : String) (ts t : ℚ)
    (habsA : lookupKey A key = none) (hin : t - ts ≤ DEDUP_TTL_SEC) :
    isDuplicate (A ++ [(key, ts)]) key t =
      ((true, some ts), purgeOld A t ++ [(key, ts)]) := by
  have habs : lookupKey (purgeOld A t) key = none :=
    lookupKey_purge_none _ _ _ habsA
  unfold isDuplicate
  rw [purgeOld_append, purgeOld_single_keep _ _ _ hin,
    lookupKey_append_of_none _ _ _ habs, lookupKey_single]
  dsimp only
  rw [if_pos hin]

/-! ### Handler execution lemmas -/

theorem handle_run_dup (st : ServerState) (a : SaveArgs) (now : DateTime) (nowTs : ℚ)
    (createdAt : String) (d : String) (t : Option String) (dt : Date)
    (hcontent : ¬ pyStrip a.content = "") (hdict : a.whenIsDict = true)
    (hmode : modeOf a.when = "ABSOLUTE" ∨ modeOf a.when = "TOKEN")
    (hres : resolveWhen (modeOf a.when) a.when now = .ok (d, t, dt))
    (hdup : (isDuplicate st.recentKeys
      (dedupKey a.idempotency_key (makeFingerprint (pyStrip a.content) d t))
      nowTs).1.1 = true) :
    handleScheduleSave st a now nowTs createdAt =
      (.duplicate
        ((dedupKey a.idempotency_key
          (makeFingerprint (pyStrip a.content) d t)).take 8) d t (pyStrip a.content),
       { st with recentKeys := (isDuplicate st.recentKeys
           (dedupKey a.idempotency_key
             (makeFingerprint (pyStrip a.content) d t)) nowTs).2 }) := by
  unfold handleScheduleSave
  rw [if_neg (by simp [hcontent, hdict]),
    if_neg (by rcases hmode with h | h <;> simp [h]), hres]
  simp [hdup]

theorem handle_run_saved (st : ServerState) (a : SaveArgs) (now : DateTime) (nowTs : ℚ)
    (createdAt : String) (d : String) (t : Option String) (dt : Date)
    (hcontent : ¬ pyStrip a.content = "") (hdict : a.whenIsDict = true)
    (hmode : modeOf a.when = "ABSOLUTE" ∨ modeOf a.when = "TOKEN")
    (hres : resolveWhen (modeOf a.when) a.when now = .ok (d, t, dt))
    (hdup : (isDuplicate st.recentKeys
      (dedupKey a.idempotency_key (makeFingerprint (pyStrip a.content) d t))
      nowTs).1.1 = false) :
    handleScheduleSave st a now nowTs createdAt =
      (.saved
        { date := toDateString dt
          day_of_week := weekdayKo dt
          time := t
          content := pyStrip a.content
          created_at := createdAt }
        (st.schedules.length + 1) (st.schedules.length + 1),
       { recentKeys := (isDuplicate st.recentKeys
           (dedupKey a.idempotency_key
             (makeFingerprint (pyStrip a.content) d t)) nowTs).2
         schedules := st.schedules ++
           [{ date := toDateString dt
              day_of_week := weekdayKo dt
              time := t
              content := pyStrip a.content
              created_at := createdAt }] }) := by
  unfold handleScheduleSave
  rw [if_neg (by simp [hcontent, hdict]),
    if_neg (by rcases hmode with h | h <;> simp [h]), hres]
  simp [hdup]

/-! ### Fingerprint injectivity on resolved values

The resolved `date`/`time` strings never contain `'|'`, which makes the
fingerprint base string uniquely decodable. -/

theorem strext (a b : String) (h : a.data = b.data) : a = b := String.ext h

theorem split_at_pipe : ∀ (D E R S : List Char), '|' ∉ D → '|' ∉ E →
    D ++ '|' :: R = E ++ '|' :: S → D = E ∧ R = S := by
  intro D
  induction D with
  | nil =>
    intro E R S _ hE h
    cases E with
    | nil => simpa using h
    | cons c t =>
      simp only [List.nil_append, List.cons_append, List.cons.injEq] at h
      exact absurd (by rw [h.1]; exact List.mem_cons_self c t) hE
  | cons c t ih =>
    intro E R S hD hE h
    cases E with
    | nil =>
      simp only [List.cons_append, List.nil_append, List.cons.injEq] at h
      exact absurd (by rw [← h.1]; exact List.mem_cons_self c t) hD
    | cons c' t' =>
      simp only [List.cons_append, List.cons.injEq] at h
      have hrec := ih t' R S (fun hm => hD (List.mem_cons_of_mem c hm))
        (fun hm => hE (List.mem_cons_of_mem c' hm)) h.2
      exact ⟨by rw [h.1, hrec.1], hrec.2⟩

theorem fingerprint_data (c d s : String) :
    (c ++ "|" ++ d ++ "|" ++ s).data = c.data ++ '|' :: (d.data ++ '|' :: s.data) := by
  show c.data ++ "|".data ++ d.data ++ "|".data ++ s.data = _
  simp

theorem pipe_free_reverse (l : List Char) (h : '|' ∉ l) : '|' ∉ l.reverse := by
  simpa using h

theorem fingerprint_inj (c1 d1 s1 c2 d2 s2 : String)
    (hd1 : '|' ∉ d1.data) (hd2 : '|' ∉ d2.data)
    (hs1 : '|' ∉ s1.data) (hs2 : '|' ∉ s2.data)
    (h : c1 ++ "|" ++ d1 ++ "|" ++ s1 = c2 ++ "|" ++ d2 ++ "|" ++ s2) :
    c1 = c2 ∧ d1 = d2 ∧ s1 = s2 := by
  have hdata := congrArg String.data h
  rw [fingerprint_data, fingerprint_data] at hdata
  have hrev := congrArg List.reverse hdata
  simp only [List.reverse_append, List.reverse_cons, List.append_assoc,
    List.singleton_append] at hrev
  obtain ⟨hs, hrest⟩ := split_at_pipe _ _ _ _ (pipe_free_reverse _ hs1)
    (pipe_free_reverse _ hs2) hrev
  obtain ⟨hd, hc⟩ := split_at_pipe _ _ _ _ (pipe_free_reverse _ hd1)
    (pipe_free_reverse _ hd2) hrest
  exact ⟨strext _ _ (List.reverse_injective hc),
    strext _ _ (List.reverse_injective hd),
    strext _ _ (List.reverse_injective hs)⟩

theorem take2Digits_chars : ∀ (l : List Char) (v : Nat) (rest : List Char),
    take2Digits l = some (v, rest) →
    ∃ pre, l = pre ++ rest ∧ ∀ c ∈ pre, c.isDigit = true := by
  intro l v rest h
  cases l with
  | nil => exact absurd h (by simp [take2Digits])
  | cons c1 r =>
    unfold take2Digits at h
    dsimp only at h
    by_cases h1 : c1.isDigit
    · rw [if_pos h1] at h
      cases r with
      | nil =>
        dsimp only at h
        simp only [Option.some.injEq, Prod.mk.injEq] at h
        exact ⟨[c1], by simp [← h.2], by simp [h1]⟩
      | cons c2 r2 =>
        dsimp only at h
        by_cases h2 : c2.isDigit
        · rw [if_pos h2] at h
          simp only [Option.some.injEq, Prod.mk.injEq] at h
          exact ⟨[c1, c2], by simp [← h.2], by
            intro c hc
            simp only [List.mem_cons, List.not_mem_nil, or_false] at hc
            rcases hc with hc | hc
            · simpa [hc] using h1
            · simpa [hc] using h2⟩
        · rw [if_neg h2] at h
          simp only [Option.some.injEq, Prod.mk.injEq] at h
          exact ⟨[c1], by simp [← h.2], by simp [h1]⟩
    · rw [if_neg h1] at h
      exact absurd h (by simp)

theorem parseDateYMD_pipe_free (s : String) (d : Date)
    (h : parseDateYMD s = some d) : '|' ∉ s.data := by
  unfold parseDateYMD at h
  rcases hs : s.data with _ | ⟨y1, _ | ⟨y2, _ | ⟨y3, _ | ⟨y4, _ | ⟨c5, rest⟩⟩⟩⟩⟩ <;>
    rw [hs] at h <;> dsimp only at h
  · exact absurd h (by simp)
  · exact absurd h (by simp)
  · exact absurd h (by simp)
  · exact absurd h (by simp)
  · exact absurd h (by simp)
  by_cases hds : y1.isDigit = true ∧ y2.isDigit = true ∧ y3.isDigit = true ∧
      y4.isDigit = true ∧ c5 = '-'
  case neg => rw [if_neg hds] at h; exact absurd h (by simp)
  rw [if_pos hds] at h
  rcases ht1 : take2Digits rest with _ | ⟨m, rest'⟩ <;> rw [ht1] at h <;> dsimp only at h
  · exact absurd h (by simp)
  rcases hr' : rest' with _ | ⟨c6, rest2⟩ <;> rw [hr'] at h <;> dsimp only at h
  · exact absurd h (by simp)
  by_cases hc6 : c6 = '-'
  case neg => rw [if_neg hc6] at h; exact absurd h (by simp)
  rw [if_pos hc6] at h
  rcases ht2 : take2Digits rest2 with _ | ⟨dv, rest3⟩ <;> rw [ht2] at h <;> dsimp only at h
  · exact absurd h (by simp)
  rcases hr3 : rest3 with _ | ⟨c7, rest4⟩ <;> rw [hr3] at h <;> dsimp only at h
  on_goal 2 => exact absurd h (by simp)
  obtain ⟨pre1, hpre1, hdig1⟩ := take2Digits_chars rest m rest' ht1
  obtain ⟨pre2, hpre2, hdig2⟩ := take2Digits_chars rest2 dv rest3 ht2
  rw [hpre1, hr', hpre2, hr3]
  intro hmem
  have hdigpipe : ('|' : Char).isDigit = false := by decide
  simp only [List.mem_cons, List.mem_append] at hmem
  rcases hmem with h1 | h2 | h3 | h4 | h5 | hrest
  · rw [← h1] at hds; simp [hdigpipe] at hds
  · rw [← h2] at hds; simp [hdigpipe] at hds
  · rw [← h3] at hds; simp [hdigpipe] at hds
  · rw [← h4] at hds; simp [hdigpipe] at hds
  · rw [← h5] at hds; exact absurd hds.2.2.2.2 (by decide)
  · rcases hrest with hp1 | hc6m | hp2 | hnil
    · have := hdig1 _ hp1; rw [hdigpipe] at this; cases this
    · rw [← hc6m] at hc6; exact absurd hc6 (by decide)
    · have := hdig2 _ hp2; rw [hdigpipe] at this; cases this
    · cases hnil

theorem parseHHMM_pipe_free (s : String) (v : Nat × Nat)
    (h : parseHHMM s = some v) : '|' ∉ s.data := by
  unfold parseHHMM at h
  rcases ht1 : take2Digits s.data with _ | ⟨hh, rest⟩ <;> rw [ht1] at h <;> dsimp only at h
  · exact absurd h (by simp)
  rcases hr : rest with _ | ⟨c, rest2⟩ <;> rw [hr] at h <;> dsimp only at h
  · exact absurd h (by simp)
  by_cases hc : c = ':'
  case neg => rw [if_neg hc] at h; exact absurd h (by simp)
  rw [if_pos hc] at h
  rcases ht2 : take2Digits rest2 with _ | ⟨mm, rest3⟩ <;> rw [ht2] at h <;> dsimp only at h
  · exact absurd h (by simp)
  rcases hr3 : rest3 with _ | ⟨c4, rest4⟩ <;> rw [hr3] at h <;> dsimp only at h
  on_goal 2 => exact absurd h (by simp)
  obtain ⟨pre1, hpre1, hdig1⟩ := take2Digits_chars s.data hh rest ht1
  obtain ⟨pre2, hpre2, hdig2⟩ := take2Digits_chars rest2 mm rest3 ht2
  rw [hpre1, hr, hpre2, hr3]
  intro hmem
  have hdigpipe : ('|' : Char).isDigit = false := by decide
  simp only [List.mem_cons, List.mem_append] at hmem
  rcases hmem with hp1 | hcm | hp2 | hnil
  · have := hdig1 _ hp1; rw [hdigpipe] at this; cases this
  · rw [← hcm] at hc; exact absurd hc (by decide)
  · have := hdig2 _ hp2; rw [hdigpipe] at this; cases this
  · cases hnil

theorem digitChar_props (k : Nat) : digitChar k ≠ '|' ∧ digitChar k ≠ ':' := by
  have h10 : k % 10 < 10 := by omega
  have : ∀ j, j < 10 → Char.ofNat (48 + j) ≠ '|' ∧ Char.ofNat (48 + j) ≠ ':' := by decide
  exact this _ h10

theorem natDigitsGo_mem (P : Char → Prop) (hP : ∀ k, P (digitChar k)) :
    ∀ (fuel n : Nat) (acc : List Char), (∀ c ∈ acc, P c) →
      ∀ c ∈ natDigitsGo fuel n acc, P c := by
  intro fuel
  induction fuel with
  | zero => intro n acc hacc c hc; exact hacc c hc
  | succ f ih =>
    intro n acc hacc c hc
    unfold natDigitsGo at hc
    by_cases hn : n < 10
    · rw [if_pos hn] at hc
      rcases List.mem_cons.mp hc with hc | hc
      · exact hc ▸ hP n
      · exact hacc c hc
    · rw [if_neg hn] at hc
      exact ih (n / 10) (digitChar (n % 10) :: acc)
        (fun c' hc' => by
          rcases List.mem_cons.mp hc' with hc' | hc'
          · exact hc' ▸ hP (n % 10)
          · exact hacc c' hc') c hc

theorem padDigits_mem (P : Char → Prop) (hP : ∀ k, P (digitChar k)) (h0 : P '0')
    (w n : Nat) : ∀ c ∈ padDigits w n, P c := by
  intro c hc
  unfold padDigits at hc
  rcases List.mem_append.mp hc with hc | hc
  · rw [List.eq_of_mem_replicate hc]; exact h0
  · exact natDigitsGo_mem P hP _ _ _ (by intro c' hc'; cases hc') c hc

theorem toDateString_pipe_free (x : Date) : '|' ∉ (toDateString x).data := by
  intro hmem
  unfold toDateString at hmem
  have hP : ∀ k, digitChar k ≠ '|' := fun k => (digitChar_props k).1
  simp only [List.mem_append, List.mem_cons] at hmem
  rcases hmem with h1 | h2 | h3 | h4 | h5
  · exact padDigits_mem (fun c => c ≠ '|') hP (by decide) 4 x.year '|' h1 rfl
  · exact absurd h2.symm (by decide)
  · exact padDigits_mem (fun c => c ≠ '|') hP (by decide) 2 x.month '|' h3 rfl
  · exact absurd h4.symm (by decide)
  · exact padDigits_mem (fun c => c ≠ '|') hP (by decide) 2 x.day '|' h5 rfl

theorem formatHM_pipe_free (h m : Nat) : '|' ∉ (formatHM h m).data := by
  intro hmem
  unfold formatHM at hmem
  have hP : ∀ k, digitChar k ≠ '|' := fun k => (digitChar_props k).1
  simp only [List.mem_append, List.mem_cons] at hmem
  rcases hmem with h1 | h2 | h3
  · exact padDigits_mem (fun c => c ≠ '|') hP (by decide) 2 h '|' h1 rfl
  · exact absurd h2.symm (by decide)
  · exact padDigits_mem (fun c => c ≠ '|') hP (by decide) 2 m '|' h3 rfl

theorem formatHM_ne_empty (h m : Nat) : formatHM h m ≠ "" := by
  intro hc
  have := congrArg String.data hc
  unfold formatHM at this
  rcases hd : padDigits 2 h with _ | _
  · rw [hd] at this; simp at this
  · rw [hd] at this; simp at this

/-- Shape facts about successful resolution: the resolved date string is
pipe-free and a resolved time is a non-empty pipe-free string. -/
theorem resolveWhen_shape (mode : String) (w : WhenSpec) (now : DateTime)
    (d : String) (t : Option String) (dt : Date)
    (h : resolveWhen mode w now = .ok (d, t, dt)) :
    '|' ∉ d.data ∧ ∀ s, t = some s → ('|' ∉ s.data ∧ s ≠ "") := by
  unfold resolveWhen at h
  by_cases hm : mode = "ABSOLUTE"
  · rw [if_pos hm] at h
    by_cases hd0 : pyStrip (w.date.getD "") = ""
    · rw [if_pos hd0] at h; exact absurd h (by simp)
    rw [if_neg hd0] at h
    rcases hp : parseDateYMD (pyStrip (w.date.getD "")) with _ | dp <;> rw [hp] at h <;>
      dsimp only at h
    · exact absurd h (by simp)
    by_cases ht0 : pyStrip (w.time.getD "") = ""
    · rw [if_pos ht0] at h
      simp only [Except.ok.injEq, Prod.mk.injEq] at h
      obtain ⟨hdd, htt, _⟩ := h
      refine ⟨hdd ▸ parseDateYMD_pipe_free _ _ hp, ?_⟩
      intro s hs
      rw [← htt] at hs
      cases hs
    · rw [if_neg ht0] at h
      by_cases hhv : ensureHHMM (pyStrip (w.time.getD "")) = true
      · rw [if_pos hhv] at h
        simp only [Except.ok.injEq, Prod.mk.injEq] at h
        obtain ⟨hdd, htt, _⟩ := h
        refine ⟨hdd ▸ parseDateYMD_pipe_free _ _ hp, ?_⟩
        intro s hs
        rw [← htt] at hs
        injection hs with hs
        unfold ensureHHMM at hhv
        rcases hpm : parseHHMM (pyStrip (w.time.getD "")) with _ | v
        · rw [hpm] at hhv; cases hhv
        · exact hs ▸ ⟨parseHHMM_pipe_free _ _ hpm, ht0⟩
      · rw [if_neg (by simpa using hhv)] at h
        exact absurd h (by simp)
  · rw [if_neg hm] at h
    rcases hdt : resolveDateToken now.date (w.date_token.getD {}) with e | dp <;>
      rw [hdt] at h
    · exact absurd h (by simp)
    rcases htt : resolveTimeToken now w.time_token with e | tv <;> rw [htt] at h
    · exact absurd h (by simp)
    simp only [Except.ok.injEq, Prod.mk.injEq] at h
    obtain ⟨hdd, htv, _⟩ := h
    refine ⟨hdd ▸ toDateString_pipe_free dp, ?_⟩
    intro s hs
    rw [← htv] at hs
    subst hs
    -- analyze resolveTimeToken producing `some s`
    unfold resolveTimeToken at htt
    rcases htok : w.time_token with _ | tk <;> rw [htok] at htt <;> dsimp only at htt
    · exact absurd htt (by simp)
    by_cases h0 : normType tk.type = ""
    · rw [if_pos h0] at htt
      exact absurd htt (by simp)
    rw [if_neg h0] at htt
    by_cases habs : normType tk.type = "ABS"
    · rw [if_pos habs] at htt
      by_cases hh : ensureHHMM (tk.value.getD "") = true
      · rw [if_pos hh] at htt
        simp only [Except.ok.injEq, Option.some.injEq] at htt
        unfold ensureHHMM at hh
        rcases hpm : parseHHMM (tk.value.getD "") with _ | v
        · rw [hpm] at hh; cases hh
        · refine htt ▸ ⟨parseHHMM_pipe_free _ _ hpm, ?_⟩
          intro hc
          rw [hc] at hpm
          rw [show parseHHMM "" = none from rfl] at hpm
          cases hpm
      · rw [if_neg (by simpa using hh)] at htt
        exact absurd htt (by simp)
    rw [if_neg habs] at htt
    by_cases hslot : normType tk.type = "SLOT"
    · rw [if_pos hslot] at htt
      by_cases h1 : pyUpper (if truthyS tk.slot then tk.slot.getD "" else "") = "MORNING"
      · rw [if_pos h1] at htt
        simp only [Except.ok.injEq, Option.some.injEq] at htt
        exact htt ▸ ⟨by decide, by decide⟩
      rw [if_neg h1] at htt
      by_cases h2 : pyUpper (if truthyS tk.slot then tk.slot.getD "" else "") = "AFTERNOON"
      · rw [if_pos h2] at htt
        simp only [Except.ok.injEq, Option.some.injEq] at htt
        exact htt ▸ ⟨by decide, by decide⟩
      rw [if_neg h2] at htt
      by_cases h3 : pyUpper (if truthyS tk.slot then tk.slot.getD "" else "") = "EVENING"
      · rw [if_pos h3] at htt
        simp only [Except.ok.injEq, Option.some.injEq] at htt
        exact htt ▸ ⟨by decide, by decide⟩
      rw [if_neg h3] at htt
      by_cases h4 : pyUpper (if truthyS tk.slot then tk.slot.getD "" else "") = "NIGHT"
      · rw [if_pos h4] at htt
        simp only [Except.ok.injEq, Option.some.injEq] at htt
        exact htt ▸ ⟨by decide, by decide⟩
      rw [if_neg h4] at htt
      exact absurd htt (by simp)
    rw [if_neg hslot] at htt
    by_cases hhr : normType tk.type = "AFTER_N_HOUR"
    · rw [if_pos hhr] at htt
      simp only [Except.ok.injEq, Option.some.injEq] at htt
      exact htt ▸ ⟨formatHM_pipe_free _ _, formatHM_ne_empty _ _⟩
    · rw [if_neg hhr] at htt
      exact absurd htt (by simp)

/-! ### Claims -/

/-- **C1**: for two `schedule_save` calls carrying the same dedup key, the
second is rejected as a duplicate iff it arrives within the 90-second TTL of
the most recent accepted call with that key: after an accepted call at `t0`
(key fresh), a call at any `t3` is a duplicate iff `t3 - t0 ≤ TTL`; a call
inside the window (at `t1`) is rejected, and because duplicates never
refresh the stored timestamp, a call at `t2` with `t2 - t0 > TTL` is
accepted again even if it follows the intervening duplicate within the
duplicate's own 90 seconds. -/
theorem claim_C1_dedup_ttl_window (m₀ : DedupMap) (key : String) (t0 t1 t2 t3 : ℚ)
    (hfresh : lookupKey (purgeOld m₀ t0) key = none)
    (hin : t1 - t0 ≤ DEDUP_TTL_SEC)
    (hout : DEDUP_TTL_SEC < t2 - t0) :
    (isDuplicate m₀ key t0).1.1 = false ∧
    ((isDuplicate (isDuplicate m₀ key t0).2 key t3).1.1 = true ↔
      t3 - t0 ≤ DEDUP_TTL_SEC) ∧
    (isDuplicate (isDuplicate m₀ key t0).2 key t1).1.1 = true ∧
    (isDuplicate (isDuplicate (isDuplicate m₀ key t0).2 key t1).2 key t2).1.1 = false := by
  have hstate1 := isDuplicate_state1 m₀ key t0 hfresh
  refine ⟨by rw [hstate1], ?_, ?_, ?_⟩
  · rw [hstate1]
    exact isDuplicate_entry _ _ _ _ hfresh
  · rw [hstate1]
    exact (isDuplicate_entry _ _ _ _ hfresh).mpr hin
  · rw [hstate1, isDuplicate_entry_hit _ _ _ _ hfresh hin]
    have habs2 : lookupKey (purgeOld (purgeOld m₀ t0) t1) key = none :=
      lookupKey_purge_none _ _ _ hfresh
    have hiff := isDuplicate_entry _ key t0 t2 habs2
    cases hb : (isDuplicate (purgeOld (purgeOld m₀ t0) t1 ++ [(key, t0)]) key t2).1.1
    · rfl
    · exact absurd (hiff.mp hb) (not_le.mpr hout)

/-- Witness for C1 at `t0 = 0`, `t1 = 50`, `t2 = 100`, `t3 = 200`, empty
initial cache. -/
theorem claim_C1_witness :
    (isDuplicate [] "k" 0).1.1 = false ∧
    ((isDuplicate (isDuplicate [] "k" 0).2 "k" 200).1.1 = true ↔
      (200 : ℚ) - 0 ≤ DEDUP_TTL_SEC) ∧
    (isDuplicate (isDuplicate [] "k" 0).2 "k" 50).1.1 = true ∧
    (isDuplicate (isDuplicate (isDuplicate [] "k" 0).2 "k" 50).2 "k" 100).1.1 = false :=
  claim_C1_dedup_ttl_window [] "k" 0 50 100 200 rfl
    (by norm_num [DEDUP_TTL_SEC]) (by norm_num [DEDUP_TTL_SEC])

/-- **C2**: when `schedule_save` rejects a call as a duplicate, no write to
the schedule store happens (the stored-schedule list is unchanged), and the
rejection payload carries the truncated dedup key (`key[:8]`) together with
exactly the resolved date and resolved time. -/
theorem claim_C2_duplicate_no_write (st : ServerState) (a : SaveArgs) (now : DateTime)
    (nowTs : ℚ) (createdAt : String) (k d : String) (t : Option String) (c : String)
    (h : (handleScheduleSave st a now nowTs createdAt).1 = .duplicate k d t c) :
    (handleScheduleSave st a now nowTs createdAt).2.schedules = st.schedules ∧
    (∃ dt, resolveWhen (modeOf a.when) a.when now = .ok (d, t, dt)) ∧
    k = (dedupKey a.idempotency_key
      (makeFingerprint (pyStrip a.content) d t)).take 8 ∧
    c = pyStrip a.content := by
  have hcopy := h
  unfold handleScheduleSave at hcopy
  by_cases h1 : pyStrip a.content = "" ∨ ¬ a.whenIsDict
  · rw [if_pos h1] at hcopy
    exact absurd hcopy (by simp)
  · rw [if_neg h1] at hcopy
    push_neg at h1
    by_cases h2 : modeOf a.when ≠ "ABSOLUTE" ∧ modeOf a.when ≠ "TOKEN"
    · rw [if_pos h2] at hcopy
      exact absurd hcopy (by simp)
    · rw [if_neg h2] at hcopy
      have hmode : modeOf a.when = "ABSOLUTE" ∨ modeOf a.when = "TOKEN" := by
        by_contra hcon
        push_neg at hcon
        exact h2 ⟨hcon.1, hcon.2⟩
      rcases hres : resolveWhen (modeOf a.when) a.when now with e | ⟨d', t', dt'⟩
      · rw [hres] at hcopy
        exact absurd hcopy (by simp)
      · rw [hres] at hcopy
        dsimp only at hcopy
        rcases hdup : (isDuplicate st.recentKeys
            (dedupKey a.idempotency_key
              (makeFingerprint (pyStrip a.content) d' t')) nowTs).1.1 with _ | _
        · rw [hdup] at hcopy
          simp only [Bool.false_eq_true, if_false] at hcopy
          exact absurd hcopy (by simp)
        · rw [hdup] at hcopy
          simp only [if_true] at hcopy
          simp only [SaveOutcome.duplicate.injEq] at hcopy
          obtain ⟨hk, hd, ht, hc⟩ := hcopy
          refine ⟨?_, ?_, ?_, hc.symm⟩
          · rw [handle_run_dup st a now nowTs createdAt d' t' dt'
              (fun hc0 => h1.1 hc0) (by simpa using h1.2) hmode hres hdup]
          · rw [← hd, ← ht]
            exact ⟨dt', rfl⟩
          · rw [← hd, ← ht]
            exact hk.symm

/-- Witness for C2: a concrete duplicate rejection leaves the store
unchanged and echoes the resolved values. -/
theorem claim_C2_witness :
    (handleScheduleSave ⟨[("hi|2024-01-02|", 0)], []⟩
      { content := "hi",
        when := { mode := some "ABSOLUTE", date := some "2024-01-02" } }
      ⟨⟨2024, 1, 1⟩, 10, 0⟩ 50 "T").2.schedules = ([] : List Schedule) ∧
    (∃ dt, resolveWhen
      (modeOf { mode := some "ABSOLUTE", date := some "2024-01-02" })
      { mode := some "ABSOLUTE", date := some "2024-01-02" }
      ⟨⟨2024, 1, 1⟩, 10, 0⟩ = .ok ("2024-01-02", none, dt)) ∧
    "hi|2024-" = (dedupKey none
      (makeFingerprint (pyStrip "hi") "2024-01-02" none)).take 8 ∧
    "hi" = pyStrip "hi" :=
  claim_C2_duplicate_no_write ⟨[("hi|2024-01-02|", 0)], []⟩
    { content := "hi",
      when := { mode := some "ABSOLUTE", date := some "2024-01-02" } }
    ⟨⟨2024, 1, 1⟩, 10, 0⟩ 50 "T" "hi|2024-" "2024-01-02" none "hi"
    (by
      have hdup : (isDuplicate [("hi|2024-01-02|", (0 : ℚ))] "hi|2024-01-02|" 50).1.1 =
          true :=
        (isDuplicate_entry [] "hi|2024-01-02|" 0 50 rfl).mpr
          (by norm_num [DEDUP_TTL_SEC])
      rw [handle_run_dup ⟨[("hi|2024-01-02|", 0)], []⟩
        { content := "hi",
          when := { mode := some "ABSOLUTE", date := some "2024-01-02" } }
        ⟨⟨2024, 1, 1⟩, 10, 0⟩ 50 "T" "2024-01-02" none ⟨2024, 1, 2⟩ (by decide) rfl
        (Or.inl rfl) rfl hdup]
      rfl)

/-- **C3**: a request with an explicit (non-empty) `idempotency_key` uses
that key verbatim in place of the content fingerprint (and without one the
fingerprint is the key); hence two calls with different content but the same
`idempotency_key` within the TTL produce exactly one acceptance and one
duplicate rejection. -/
theorem claim_C3_idempotency_key_override
    (st : ServerState) (a1 a2 : SaveArgs) (now1 now2 : DateTime) (t1 t2 : ℚ)
    (ca1 ca2 : String) (k fp d1 : String) (tm1 : Option String) (dt1 : Date)
    (d2 : String) (tm2 : Option String) (dt2 : Date)
    (hk1 : a1.idempotency_key = some k) (hk2 : a2.idempotency_key = some k)
    (hknz : k ≠ "")
    (_hdiff : pyStrip a1.content ≠ pyStrip a2.content)
    (hc1 : ¬ pyStrip a1.content = "") (hw1 : a1.whenIsDict = true)
    (hm1 : modeOf a1.when = "ABSOLUTE" ∨ modeOf a1.when = "TOKEN")
    (hres1 : resolveWhen (modeOf a1.when) a1.when now1 = .ok (d1, tm1, dt1))
    (hc2 : ¬ pyStrip a2.content = "") (hw2 : a2.whenIsDict = true)
    (hm2 : modeOf a2.when = "ABSOLUTE" ∨ modeOf a2.when = "TOKEN")
    (hres2 : resolveWhen (modeOf a2.when) a2.when now2 = .ok (d2, tm2, dt2))
    (hfresh : lookupKey (purgeOld st.recentKeys t1) k = none)
    (hin : t2 - t1 ≤ DEDUP_TTL_SEC) :
    dedupKey (some k) fp = k ∧
    dedupKey none fp = fp ∧
    (handleScheduleSave st a1 now1 t1 ca1).1 =
      .saved ⟨toDateString dt1, weekdayKo dt1, tm1, pyStrip a1.content, ca1⟩
        (st.schedules.length + 1) (st.schedules.length + 1) ∧
    (handleScheduleSave (handleScheduleSave st a1 now1 t1 ca1).2 a2 now2 t2 ca2).1 =
      .duplicate (k.take 8) d2 tm2 (pyStrip a2.content) ∧
    (handleScheduleSave (handleScheduleSave st a1 now1 t1 ca1).2 a2 now2 t2 ca2).2.schedules =
      (handleScheduleSave st a1 now1 t1 ca1).2.schedules := by
  have hkey : ∀ s, dedupKey (some k) s = k := by
    intro s
    unfold dedupKey truthyS
    simp [hknz]
  have hkk1 : dedupKey a1.idempotency_key (makeFingerprint (pyStrip a1.content) d1 tm1) = k := by
    rw [hk1, hkey]
  have hkk2 : dedupKey a2.idempotency_key (makeFingerprint (pyStrip a2.content) d2 tm2) = k := by
    rw [hk2, hkey]
  have hdup1 : (isDuplicate st.recentKeys
      (dedupKey a1.idempotency_key (makeFingerprint (pyStrip a1.content) d1 tm1))
      t1).1.1 = false := by
    rw [hkk1, isDuplicate_state1 _ _ _ hfresh]
  have hrun1 := handle_run_saved st a1 now1 t1 ca1 d1 tm1 dt1 hc1 hw1 hm1 hres1 hdup1
  have hst2keys : (handleScheduleSave st a1 now1 t1 ca1).2.recentKeys =
      purgeOld st.recentKeys t1 ++ [(k, t1)] := by
    rw [hrun1]
    show (isDuplicate st.recentKeys
      (dedupKey a1.idempotency_key (makeFingerprint (pyStrip a1.content) d1 tm1)) t1).2 = _
    rw [hkk1, isDuplicate_state1 _ _ _ hfresh]
  have hdup2 : (isDuplicate (handleScheduleSave st a1 now1 t1 ca1).2.recentKeys
      (dedupKey a2.idempotency_key (makeFingerprint (pyStrip a2.content) d2 tm2))
      t2).1.1 = true := by
    rw [hkk2, hst2keys]
    exact (isDuplicate_entry _ _ _ _ hfresh).mpr hin
  have hrun2 := handle_run_dup (handleScheduleSave st a1 now1 t1 ca1).2 a2 now2 t2 ca2
    d2 tm2 dt2 hc2 hw2 hm2 hres2 hdup2
  refine ⟨hkey fp, rfl, ?_, ?_, ?_⟩
  · rw [hrun1]
  · rw [hrun2, hkk2]
  · rw [hrun2]

/-- Witness for C3: concrete contents `"a"` and `"b"` with shared key
`"K"`, one minute apart. -/
theorem claim_C3_witness :
    dedupKey (some "K") "fp" = "K" ∧
    dedupKey none "fp" = "fp" ∧
    (handleScheduleSave ⟨[], []⟩
      { content := "a",
        when := { mode := some "ABSOLUTE", date := some "2024-01-02" },
        idempotency_key := some "K" } ⟨⟨2024, 1, 1⟩, 10, 0⟩ 0 "T").1 =
      .saved ⟨toDateString ⟨2024, 1, 2⟩, weekdayKo ⟨2024, 1, 2⟩, none, pyStrip "a", "T"⟩
        (List.length ([] : List Schedule) + 1) (List.length ([] : List Schedule) + 1) ∧
    (handleScheduleSave (handleScheduleSave ⟨[], []⟩
      { content := "a",
        when := { mode := some "ABSOLUTE", date := some "2024-01-02" },
        idempotency_key := some "K" } ⟨⟨2024, 1, 1⟩, 10, 0⟩ 0 "T").2
      { content := "b",
        when := { mode := some "ABSOLUTE", date := some "2024-01-02" },
        idempotency_key := some "K" } ⟨⟨2024, 1, 1⟩, 10, 0⟩ 60 "T").1 =
      .duplicate ("K".take 8) "2024-01-02" none (pyStrip "b") ∧
    (handleScheduleSave (handleScheduleSave ⟨[], []⟩
      { content := "a",
        when := { mode := some "ABSOLUTE", date := some "2024-01-02" },
        idempotency_key := some "K" } ⟨⟨2024, 1, 1⟩, 10, 0⟩ 0 "T").2
      { content := "b",
        when := { mode := some "ABSOLUTE", date := some "2024-01-02" },
        idempotency_key := some "K" } ⟨⟨2024, 1, 1⟩, 10, 0⟩ 60 "T").2.schedules =
      (handleScheduleSave ⟨[], []⟩
        { content := "a",
          when := { mode := some "ABSOLUTE", date := some "2024-01-02" },
          idempotency_key := some "K" } ⟨⟨2024, 1, 1⟩, 10, 0⟩ 0 "T").2.schedules :=
  claim_C3_idempotency_key_override ⟨[], []⟩
    { content := "a",
      when := { mode := some "ABSOLUTE", date := some "2024-01-02" },
      idempotency_key := some "K" }
    { content := "b",
      when := { mode := some "ABSOLUTE", date := some "2024-01-02" },
      idempotency_key := some "K" }
    ⟨⟨2024, 1, 1⟩, 10, 0⟩ ⟨⟨2024, 1, 1⟩, 10, 0⟩ 0 60 "T" "T" "K" "fp"
    "2024-01-02" none ⟨2024, 1, 2⟩ "2024-01-02" none ⟨2024, 1, 2⟩
    rfl rfl (by decide) (by decide) (by decide) rfl (Or.inl rfl) rfl
    (by decide) rfl (Or.inl rfl) rfl rfl (by norm_num [DEDUP_TTL_SEC])

theorem lookupKey_single_ne (k' k : String) (v : ℚ) (h : k' ≠ k) :
    lookupKey [(k', v)] k = none := by
  unfold lookupKey
  rw [List.find?_cons]
  have : (k' == k) = false := by simpa using h
  rw [this]
  rfl

theorem timeOrEmpty_some (s : String) (hs : s ≠ "") : timeOrEmpty (some s) = s := by
  unfold timeOrEmpty truthyS
  simp [hs]

theorem timeOrEmpty_inj (t1 t2 : Option String)
    (h1 : ∀ s, t1 = some s → s ≠ "") (h2 : ∀ s, t2 = some s → s ≠ "")
    (h : timeOrEmpty t1 = timeOrEmpty t2) : t1 = t2 := by
  rcases t1 with _ | s1 <;> rcases t2 with _ | s2
  · rfl
  · rw [timeOrEmpty_some s2 (h2 s2 rfl)] at h
    exact absurd h.symm (h2 s2 rfl)
  · rw [timeOrEmpty_some s1 (h1 s1 rfl)] at h
    exact absurd h (h1 s1 rfl)
  · rw [timeOrEmpty_some s1 (h1 s1 rfl), timeOrEmpty_some s2 (h2 s2 rfl)] at h
    rw [h]

theorem timeOrEmpty_pipe_free (t : Option String)
    (h : ∀ s, t = some s → '|' ∉ s.data) : '|' ∉ (timeOrEmpty t).data := by
  rcases t with _ | s
  · intro hc
    cases hc
  · by_cases hs : s = ""
    · subst hs
      intro hc
      cases hc
    · rw [timeOrEmpty_some s hs]
      exact h s rfl

/-- **C10**: an `idempotency_key` supplied as the empty string is falsy, so
the dedup key falls back to the content fingerprint; two calls with empty
`idempotency_key` whose (content, resolved date, resolved time) triples
differ are therefore both accepted — even within the TTL — rather than
deduplicated against each other. -/
theorem claim_C10_empty_idempotency_key
    (st : ServerState) (a1 a2 : SaveArgs) (now1 now2 : DateTime) (t1 t2 : ℚ)
    (ca1 ca2 : String) (fp d1 : String) (tm1 : Option String) (dt1 : Date)
    (d2 : String) (tm2 : Option String) (dt2 : Date)
    (hk1 : a1.idempotency_key = some "") (hk2 : a2.idempotency_key = some "")
    (hc1 : ¬ pyStrip a1.content = "") (hw1 : a1.whenIsDict = true)
    (hm1 : modeOf a1.when = "ABSOLUTE" ∨ modeOf a1.when = "TOKEN")
    (hres1 : resolveWhen (modeOf a1.when) a1.when now1 = .ok (d1, tm1, dt1))
    (hc2 : ¬ pyStrip a2.content = "") (hw2 : a2.whenIsDict = true)
    (hm2 : modeOf a2.when = "ABSOLUTE" ∨ modeOf a2.when = "TOKEN")
    (hres2 : resolveWhen (modeOf a2.when) a2.when now2 = .ok (d2, tm2, dt2))
    (hdiff : ¬ (pyStrip a1.content = pyStrip a2.content ∧ d1 = d2 ∧ tm1 = tm2))
    (hfresh1 : lookupKey (purgeOld st.recentKeys t1)
      (makeFingerprint (pyStrip a1.content) d1 tm1) = none)
    (hfresh2 : lookupKey (purgeOld st.recentKeys t1)
      (makeFingerprint (pyStrip a2.content) d2 tm2) = none) :
    dedupKey (some "") fp = fp ∧
    (handleScheduleSave st a1 now1 t1 ca1).1 =
      .saved ⟨toDateString dt1, weekdayKo dt1, tm1, pyStrip a1.content, ca1⟩
        (st.schedules.length + 1) (st.schedules.length + 1) ∧
    (handleScheduleSave (handleScheduleSave st a1 now1 t1 ca1).2 a2 now2 t2 ca2).1 =
      .saved ⟨toDateString dt2, weekdayKo dt2, tm2, pyStrip a2.content, ca2⟩
        ((handleScheduleSave st a1 now1 t1 ca1).2.schedules.length + 1)
        ((handleScheduleSave st a1 now1 t1 ca1).2.schedules.length + 1) ∧
    (handleScheduleSave (handleScheduleSave st a1 now1 t1 ca1).2 a2 now2 t2 ca2).2.schedules =
      (handleScheduleSave st a1 now1 t1 ca1).2.schedules ++
        [⟨toDateString dt2, weekdayKo dt2, tm2, pyStrip a2.content, ca2⟩] := by
  have hkey0 : ∀ s, dedupKey (some "") s = s := by
    intro s
    unfold dedupKey truthyS
    simp
  have hshape1 := resolveWhen_shape _ _ _ _ _ _ hres1
  have hshape2 := resolveWhen_shape _ _ _ _ _ _ hres2
  have hne : makeFingerprint (pyStrip a1.content) d1 tm1 ≠
      makeFingerprint (pyStrip a2.content) d2 tm2 := by
    intro heq
    unfold makeFingerprint at heq
    obtain ⟨hceq, hdeq, hteq⟩ := fingerprint_inj _ _ _ _ _ _
      hshape1.1 hshape2.1
      (timeOrEmpty_pipe_free tm1 (fun s hs => (hshape1.2 s hs).1))
      (timeOrEmpty_pipe_free tm2 (fun s hs => (hshape2.2 s hs).1)) heq
    exact hdiff ⟨hceq, hdeq,
      timeOrEmpty_inj tm1 tm2 (fun s hs => (hshape1.2 s hs).2)
        (fun s hs => (hshape2.2 s hs).2) hteq⟩
  have hkk1 : dedupKey a1.idempotency_key (makeFingerprint (pyStrip a1.content) d1 tm1) =
      makeFingerprint (pyStrip a1.content) d1 tm1 := by rw [hk1, hkey0]
  have hkk2 : dedupKey a2.idempotency_key (makeFingerprint (pyStrip a2.content) d2 tm2) =
      makeFingerprint (pyStrip a2.content) d2 tm2 := by rw [hk2, hkey0]
  have hdup1 : (isDuplicate st.recentKeys
      (dedupKey a1.idempotency_key (makeFingerprint (pyStrip a1.content) d1 tm1))
      t1).1.1 = false := by
    rw [hkk1, isDuplicate_state1 _ _ _ hfresh1]
  have hrun1 := handle_run_saved st a1 now1 t1 ca1 d1 tm1 dt1 hc1 hw1 hm1 hres1 hdup1
  have hst2keys : (handleScheduleSave st a1 now1 t1 ca1).2.recentKeys =
      purgeOld st.recentKeys t1 ++ [(makeFingerprint (pyStrip a1.content) d1 tm1, t1)] := by
    rw [hrun1]
    show (isDuplicate st.recentKeys
      (dedupKey a1.idempotency_key (makeFingerprint (pyStrip a1.content) d1 tm1)) t1).2 = _
    rw [hkk1, isDuplicate_state1 _ _ _ hfresh1]
  have hfresh2' : lookupKey
      (purgeOld (handleScheduleSave st a1 now1 t1 ca1).2.recentKeys t2)
      (makeFingerprint (pyStrip a2.content) d2 tm2) = none := by
    rw [hst2keys, purgeOld_append,
      lookupKey_append_of_none _ _ _ (lookupKey_purge_none _ _ _ hfresh2)]
    exact lookupKey_purge_none _ _ _ (lookupKey_single_ne _ _ _ hne)
  have hdup2 : (isDuplicate (handleScheduleSave st a1 now1 t1 ca1).2.recentKeys
      (dedupKey a2.idempotency_key (makeFingerprint (pyStrip a2.content) d2 tm2))
      t2).1.1 = false := by
    rw [hkk2, isDuplicate_state1 _ _ _ hfresh2']
  have hrun2 := handle_run_saved (handleScheduleSave st a1 now1 t1 ca1).2 a2 now2 t2 ca2
    d2 tm2 dt2 hc2 hw2 hm2 hres2 hdup2
  refine ⟨hkey0 fp, ?_, ?_, ?_⟩
  · rw [hrun1]
  · rw [hrun2]
  · rw [hrun2]

/-- Witness for C10: contents `"a"` and `"b"`, both with empty
`idempotency_key`, 50 seconds apart (inside the TTL), both accepted. -/
theorem claim_C10_witness :
    dedupKey (some "") "fp" = "fp" ∧
    (handleScheduleSave ⟨[], []⟩
      { content := "a",
        when := { mode := some "ABSOLUTE", date := some "2024-01-02" },
        idempotency_key := some "" } ⟨⟨2024, 1, 1⟩, 10, 0⟩ 0 "T").1 =
      .saved ⟨toDateString ⟨2024, 1, 2⟩, weekdayKo ⟨2024, 1, 2⟩, none, pyStrip "a", "T"⟩
        (List.length ([] : List Schedule) + 1) (List.length ([] : List Schedule) + 1) ∧
    (handleScheduleSave (handleScheduleSave ⟨[], []⟩
      { content := "a",
        when := { mode := some "ABSOLUTE", date := some "2024-01-02" },
        idempotency_key := some "" } ⟨⟨2024, 1, 1⟩, 10, 0⟩ 0 "T").2
      { content := "b",
        when := { mode := some "ABSOLUTE", date := some "2024-01-02" },
        idempotency_key := some "" } ⟨⟨2024, 1, 1⟩, 10, 0⟩ 50 "T").1 =
      .saved ⟨toDateString ⟨2024, 1, 2⟩, weekdayKo ⟨2024, 1, 2⟩, none, pyStrip "b", "T"⟩
        ((handleScheduleSave ⟨[], []⟩
          { content := "a",
            when := { mode := some "ABSOLUTE", date := some "2024-01-02" },
            idempotency_key := some "" } ⟨⟨2024, 1, 1⟩, 10, 0⟩ 0 "T").2.schedules.length + 1)
        ((handleScheduleSave ⟨[], []⟩
          { content := "a",
            when := { mode := some "ABSOLUTE", date := some "2024-01-02" },
            idempotency_key := some "" } ⟨⟨2024, 1, 1⟩, 10, 0⟩ 0 "T").2.schedules.length + 1) ∧
    (handleScheduleSave (handleScheduleSave ⟨[], []⟩
      { content := "a",
        when := { mode := some "ABSOLUTE", date := some "2024-01-02" },
        idempotency_key := some "" } ⟨⟨2024, 1, 1⟩, 10, 0⟩ 0 "T").2
      { content := "b",
        when := { mode := some "ABSOLUTE", date := some "2024-01-02" },
        idempotency_key := some "" } ⟨⟨2024, 1, 1⟩, 10, 0⟩ 50 "T").2.schedules =
      (handleScheduleSave ⟨[], []⟩
        { content := "a",
          when := { mode := some "ABSOLUTE", date := some "2024-01-02" },
          idempotency_key := some "" } ⟨⟨2024, 1, 1⟩, 10, 0⟩ 0 "T").2.schedules ++
        [⟨toDateString ⟨2024, 1, 2⟩, weekdayKo ⟨2024, 1, 2⟩, none, pyStrip "b", "T"⟩] :=
  claim_C10_empty_idempotency_key ⟨[], []⟩
    { content := "a",
      when := { mode := some "ABSOLUTE", date := some "2024-01-02" },
      idempotency_key := some "" }
    { content := "b",
      when := { mode := some "ABSOLUTE", date := some "2024-01-02" },
      idempotency_key := some "" }
    ⟨⟨2024, 1, 1⟩, 10, 0⟩ ⟨⟨2024, 1, 1⟩, 10, 0⟩ 0 50 "T" "T" "fp"
    "2024-01-02" none ⟨2024, 1, 2⟩ "2024-01-02" none ⟨2024, 1, 2⟩
    rfl rfl (by decide) rfl (Or.inl rfl) rfl
    (by decide) rfl (Or.inl rfl) rfl (by decide) rfl rfl

theorem dimL_pos : ∀ L : Bool, ∀ m, 1 ≤ m → m ≤ 12 → 28 ≤ daysInMonthL L m := by
  decide

theorem daysInMonth_pos (y m : Nat) (h1 : 1 ≤ m) (h2 : m ≤ 12) :
    28 ≤ daysInMonth y m := dimL_pos (isLeap y) m h1 h2

theorem nextMonth_bounds (now : Date) (hv : now.valid) :
    1 ≤ nextMonthY now ∧ 1 ≤ nextMonthM now ∧ nextMonthM now ≤ 12 := by
  obtain ⟨hy, hm1, hm2, _, _⟩ := hv
  refine ⟨?_, ?_, ?_⟩
  · unfold nextMonthY
    split <;> omega
  · unfold nextMonthM
    split <;> omega
  · unfold nextMonthM
    split <;> omega

/-- **C4**: for every anchor, `NEXT_MONTH` resolves to the following
calendar month (rolling the year December→January), with the day taken from
the token's (truthy) `day` field if present, else the anchor's day, clamped
down to the last valid day of the target month; in particular
`2024-03-31` with no `day` resolves to `2024-04-30` (a Tuesday), never to
day 1 of the month after. -/
theorem claim_C4_next_month (now : Date) (hv : now.valid) (tok : DateToken)
    (hty : normType tok.type = "NEXT_MONTH")
    (hday : ∀ dd : Int, tok.day = some dd → 1 ≤ dd) :
    resolveDateToken now tok =
      .ok ⟨nextMonthY now, nextMonthM now,
        min (if truthyI tok.day then (tok.day.getD 0).toNat else now.day)
          (daysInMonth (nextMonthY now) (nextMonthM now))⟩ ∧
    (if now.month = 12 then nextMonthY now = now.year + 1 ∧ nextMonthM now = 1
     else nextMonthY now = now.year ∧ nextMonthM now = now.month + 1) ∧
    resolveDateToken ⟨2024, 3, 31⟩ { type := some "NEXT_MONTH" } = .ok ⟨2024, 4, 30⟩ ∧
    Date.weekday ⟨2024, 4, 30⟩ = 1 := by
  obtain ⟨hy, hm1, hm2, hd1, hd2⟩ := hv
  have hb := nextMonth_bounds now ⟨hy, hm1, hm2, hd1, hd2⟩
  have hreq : 1 ≤ (if truthyI tok.day then tok.day.getD 0 else (now.day : Int)) := by
    by_cases ht : truthyI tok.day = true
    · rw [if_pos ht]
      rcases hdv : tok.day with _ | dd
      · rw [hdv] at ht
        cases ht
      · simpa using hday dd hdv
    · rw [if_neg ht]
      exact_mod_cast hd1
  refine ⟨?_, ?_, rfl, rfl⟩
  · unfold resolveDateToken
    rw [hty]
    rw [if_neg (by decide), if_neg (by decide), if_pos rfl]
    unfold replaceYMD
    have hdimpos : 28 ≤ daysInMonth (nextMonthY now) (nextMonthM now) :=
      daysInMonth_pos _ _ hb.2.1 hb.2.2
    rw [if_pos]
    · congr 1
      congr 1
      have h1 : (0 : Int) ≤ if truthyI tok.day then tok.day.getD 0 else (now.day : Int) := by
        omega
      rcases ht : truthyI tok.day with _ | _
      · simp only [Bool.false_eq_true, if_false] at hreq h1 ⊢
        omega
      · simp only [if_true] at hreq h1 ⊢
        omega
    · refine ⟨hb.1, hb.2.1, hb.2.2, ?_, ?_⟩
      · rw [le_min_iff]
        constructor
        · exact hreq
        · omega
      · exact min_le_right _ _
  · by_cases h12 : now.month = 12
    · rw [if_pos h12]
      unfold nextMonthY nextMonthM
      rw [if_pos (by omega), if_pos (by omega)]
      exact ⟨rfl, rfl⟩
    · rw [if_neg h12]
      unfold nextMonthY nextMonthM
      rw [if_neg (by omega), if_neg (by omega)]
      exact ⟨rfl, rfl⟩

/-- Witness for C4 at anchor `2024-01-31` with `day = 15`. -/
theorem claim_C4_witness :
    resolveDateToken ⟨2024, 1, 31⟩ { type := some "NEXT_MONTH", day := some 15 } =
      .ok ⟨nextMonthY ⟨2024, 1, 31⟩, nextMonthM ⟨2024, 1, 31⟩,
        min (if truthyI (some 15) then ((some (15 : Int)).getD 0).toNat else 31)
          (daysInMonth (nextMonthY ⟨2024, 1, 31⟩) (nextMonthM ⟨2024, 1, 31⟩))⟩ ∧
    (if (⟨2024, 1, 31⟩ : Date).month = 12 then
      nextMonthY ⟨2024, 1, 31⟩ = 2024 + 1 ∧ nextMonthM ⟨2024, 1, 31⟩ = 1
     else nextMonthY ⟨2024, 1, 31⟩ = 2024 ∧ nextMonthM ⟨2024, 1, 31⟩ = 1 + 1) ∧
    resolveDateToken ⟨2024, 3, 31⟩ { type := some "NEXT_MONTH" } = .ok ⟨2024, 4, 30⟩ ∧
    Date.weekday ⟨2024, 4, 30⟩ = 1 :=
  claim_C4_next_month ⟨2024, 1, 31⟩ (by decide) { type := some "NEXT_MONTH", day := some 15 }
    rfl (by intro dd hdd; injection hdd with hdd; omega)

/-- **C5**: `AFTER_N_DAY` reads the offset from `n` (or `value`), takes its
absolute value and adds that many days: resolving with `n = k` and with
`n = -k` gives the identical date, `value = k` behaves like `n = k`, and the
result is the anchor plus `|k|` days — never a date in the past. -/
theorem claim_C5_after_n_day (now : Date) (hv : now.valid) (k : Int) :
    resolveDateToken now { type := some "AFTER_N_DAY", n := some k } =
      resolveDateToken now { type := some "AFTER_N_DAY", n := some (-k) } ∧
    resolveDateToken now { type := some "AFTER_N_DAY", value := some k } =
      resolveDateToken now { type := some "AFTER_N_DAY", n := some k } ∧
    resolveDateToken now { type := some "AFTER_N_DAY", n := some k } =
      .ok (addDays now k.natAbs) ∧
    toOrdinal (addDays now k.natAbs) = toOrdinal now + k.natAbs ∧
    toOrdinal now ≤ toOrdinal (addDays now k.natAbs) := by
  have hval : ∀ nn vv : Option Int, resolveDateToken now
      { type := some "AFTER_N_DAY", n := nn, value := vv } =
      .ok (addDays now (readNV nn vv).natAbs) := by
    intro nn vv
    rfl
  have hread : readNV (some k) none = k := by
    unfold readNV truthyI
    by_cases hk : k = 0
    · simp [hk]
    · simp [hk]
  have hreadneg : readNV (some (-k)) none = -k := by
    unfold readNV truthyI
    by_cases hk : k = 0
    · simp [hk]
    · have : ¬ -k = 0 := by omega
      simp [this]
  have hreadval : readNV none (some k) = k := by
    unfold readNV truthyI
    by_cases hk : k = 0
    · simp [hk]
    · simp [hk]
  have hord := toOrdinal_addDays now k.natAbs (toOrdinal_pos now hv)
  refine ⟨?_, ?_, ?_, hord, by omega⟩
  · rw [hval (some k) none, hval (some (-k)) none, hread, hreadneg, Int.natAbs_neg]
  · rw [hval none (some k), hval (some k) none, hreadval, hread]
  · rw [hval (some k) none, hread]

/-- Witness for C5 at anchor `2024-01-15`, `k = -3`. -/
theorem claim_C5_witness :
    resolveDateToken ⟨2024, 1, 15⟩ { type := some "AFTER_N_DAY", n := some (-3) } =
      resolveDateToken ⟨2024, 1, 15⟩ { type := some "AFTER_N_DAY", n := some (-(-3)) } ∧
    resolveDateToken ⟨2024, 1, 15⟩ { type := some "AFTER_N_DAY", value := some (-3) } =
      resolveDateToken ⟨2024, 1, 15⟩ { type := some "AFTER_N_DAY", n := some (-3) } ∧
    resolveDateToken ⟨2024, 1, 15⟩ { type := some "AFTER_N_DAY", n := some (-3) } =
      .ok (addDays ⟨2024, 1, 15⟩ (Int.natAbs (-3))) ∧
    toOrdinal (addDays ⟨2024, 1, 15⟩ (Int.natAbs (-3))) =
      toOrdinal ⟨2024, 1, 15⟩ + Int.natAbs (-3) ∧
    toOrdinal ⟨2024, 1, 15⟩ ≤ toOrdinal (addDays ⟨2024, 1, 15⟩ (Int.natAbs (-3))) :=
  claim_C5_after_n_day ⟨2024, 1, 15⟩ (by decide) (-3)

theorem weekdayToNum_lt7 (label : String) (wd : Nat)
    (h : weekdayToNum label = .ok wd) : wd < 7 := by
  unfold weekdayToNum at h
  by_cases h1 : pyStrip label = "월"
  · rw [if_pos h1] at h
    injection h with h
    omega
  rw [if_neg h1] at h
  by_cases h2 : pyStrip label = "화"
  · rw [if_pos h2] at h
    injection h with h
    omega
  rw [if_neg h2] at h
  by_cases h3 : pyStrip label = "수"
  · rw [if_pos h3] at h
    injection h with h
    omega
  rw [if_neg h3] at h
  by_cases h4 : pyStrip label = "목"
  · rw [if_pos h4] at h
    injection h with h
    omega
  rw [if_neg h4] at h
  by_cases h5 : pyStrip label = "금"
  · rw [if_pos h5] at h
    injection h with h
    omega
  rw [if_neg h5] at h
  by_cases h6 : pyStrip label = "토"
  · rw [if_pos h6] at h
    injection h with h
    omega
  rw [if_neg h6] at h
  by_cases h7 : pyStrip label = "일"
  · rw [if_pos h7] at h
    injection h with h
    omega
  rw [if_neg h7] at h
  by_cases h8 : pyUpper (pyStrip label) = "MON"
  · rw [if_pos h8] at h
    injection h with h
    omega
  rw [if_neg h8] at h
  by_cases h9 : pyUpper (pyStrip label) = "TUE"
  · rw [if_pos h9] at h
    injection h with h
    omega
  rw [if_neg h9] at h
  by_cases h10 : pyUpper (pyStrip label) = "WED"
  · rw [if_pos h10] at h
    injection h with h
    omega
  rw [if_neg h10] at h
  by_cases h11 : pyUpper (pyStrip label) = "THU"
  · rw [if_pos h11] at h
    injection h with h
    omega
  rw [if_neg h11] at h
  by_cases h12 : pyUpper (pyStrip label) = "FRI"
  · rw [if_pos h12] at h
    injection h with h
    omega
  rw [if_neg h12] at h
  by_cases h13 : pyUpper (pyStrip label) = "SAT"
  · rw [if_pos h13] at h
    injection h with h
    omega
  rw [if_neg h13] at h
  by_cases h14 : pyUpper (pyStrip label) = "SUN"
  · rw [if_pos h14] at h
    injection h with h
    omega
  rw [if_neg h14] at h
  exact absurd h (by simp)

/-- **C6**: `NTH_WEEKDAY_OF_MONTH` locates the first day of the requested
weekday on or after the 1st of the selected month and adds `(n-1)` weeks;
whenever the computed day exceeds the number of days in that month the call
fails with a validation error (never a clamped or wrapped date), and when it
exists the returned date carries exactly that day and weekday. -/
theorem claim_C6_nth_weekday (now : Date) (tok : DateToken)
    (hty : normType tok.type = "NTH_WEEKDAY_OF_MONTH")
    (n : Int) (hn : (if truthyI tok.n then tok.n else tok.value) = some n)
    (wd : Nat) (hwd : weekdayToNum (tok.weekday.getD "") = .ok wd)
    (refD : Date)
    (href : refD = (if pyUpper
        (if truthyS tok.anchor then tok.anchor.getD "" else "THIS_MONTH") =
        "NEXT_MONTH" then (⟨nextMonthY now, nextMonthM now, 1⟩ : Date)
      else ⟨now.year, now.month, 1⟩)) :
    ((daysInMonth refD.year refD.month : Int) < nthWeekdayDay refD n wd →
      resolveDateToken now tok = .error "n-th weekday does not exist this month") ∧
    (1 ≤ nthWeekdayDay refD n wd →
      nthWeekdayDay refD n wd ≤ (daysInMonth refD.year refD.month : Int) →
      resolveDateToken now tok =
        .ok ⟨refD.year, refD.month, (nthWeekdayDay refD n wd).toNat⟩ ∧
      Date.weekday ⟨refD.year, refD.month, (nthWeekdayDay refD n wd).toNat⟩ = wd) ∧
    Date.weekday ⟨refD.year, refD.month,
      1 + (wd + 7 - Date.weekday ⟨refD.year, refD.month, 1⟩) % 7⟩ = wd ∧
    1 + (wd + 7 - Date.weekday ⟨refD.year, refD.month, 1⟩) % 7 ≤ 7 := by
  have hwd7 : wd < 7 := weekdayToNum_lt7 _ _ hwd
  have hres : resolveDateToken now tok = nthWeekdayOfMonth refD n wd := by
    unfold resolveDateToken
    rw [hty]
    rw [if_neg (by decide), if_neg (by decide), if_neg (by decide),
      if_neg (by decide), if_neg (by decide), if_neg (by decide),
      if_neg (by decide), if_pos rfl, hn]
    dsimp only
    rw [hwd]
    dsimp only
    rw [← href]
  have hweekday_of_day : ∀ dd : Nat, 1 ≤ dd →
      Date.weekday ⟨refD.year, refD.month, dd⟩ =
        (Date.weekday ⟨refD.year, refD.month, 1⟩ + (dd - 1)) % 7 := by
    intro dd hdd
    show (toOrdinal ⟨refD.year, refD.month, dd⟩ + 6) % 7 = _
    unfold Date.weekday toOrdinal
    dsimp only
    omega
  refine ⟨?_, ?_, ?_, ?_⟩
  · intro hover
    rw [hres]
    unfold nthWeekdayOfMonth
    rw [if_pos hover]
  · intro h1 h2
    rw [hres]
    unfold nthWeekdayOfMonth
    rw [if_neg (by omega)]
    unfold replaceDay
    constructor
    · rw [if_pos]
      exact ⟨by omega, by omega⟩
    · rw [hweekday_of_day _ (by omega)]
      unfold nthWeekdayDay at h1 h2 ⊢
      have hfw : Date.weekday ⟨refD.year, refD.month, 1⟩ < 7 := weekday_lt _
      omega
  · rw [hweekday_of_day _ (by omega)]
    have hfw : Date.weekday ⟨refD.year, refD.month, 1⟩ < 7 := weekday_lt _
    omega
  · have hfw : Date.weekday ⟨refD.year, refD.month, 1⟩ < 7 := weekday_lt _
    omega

/-- Witness for C6: the 5th Monday of March 2024 does not exist (error) and
the 4th Monday is 2024-03-25. -/
theorem claim_C6_witness :
    ((daysInMonth (2024 : Nat) (3 : Nat) : Int) <
        nthWeekdayDay ⟨2024, 3, 1⟩ 5 0 →
      resolveDateToken ⟨2024, 3, 31⟩
        { type := some "NTH_WEEKDAY_OF_MONTH", n := some 5, weekday := some "MON" } =
        .error "n-th weekday does not exist this month") ∧
    (1 ≤ nthWeekdayDay ⟨2024, 3, 1⟩ 5 0 →
      nthWeekdayDay ⟨2024, 3, 1⟩ 5 0 ≤ (daysInMonth (2024 : Nat) (3 : Nat) : Int) →
      resolveDateToken ⟨2024, 3, 31⟩
        { type := some "NTH_WEEKDAY_OF_MONTH", n := some 5, weekday := some "MON" } =
        .ok ⟨2024, 3, (nthWeekdayDay ⟨2024, 3, 1⟩ 5 0).toNat⟩ ∧
      Date.weekday ⟨2024, 3, (nthWeekdayDay ⟨2024, 3, 1⟩ 5 0).toNat⟩ = 0) ∧
    Date.weekday ⟨2024, 3, 1 + (0 + 7 - Date.weekday ⟨2024, 3, 1⟩) % 7⟩ = 0 ∧
    1 + (0 + 7 - Date.weekday ⟨2024, 3, 1⟩) % 7 ≤ 7 ∧
    resolveDateToken ⟨2024, 3, 31⟩
      { type := some "NTH_WEEKDAY_OF_MONTH", n := some 5, weekday := some "MON" } =
      .error "n-th weekday does not exist this month" := by
  have h := claim_C6_nth_weekday ⟨2024, 3, 31⟩
    { type := some "NTH_WEEKDAY_OF_MONTH", n := some 5, weekday := some "MON" }
    rfl 5 rfl 0 rfl ⟨2024, 3, 1⟩ rfl
  exact ⟨h.1, h.2.1, h.2.2.1, h.2.2.2, h.1 (by decide)⟩

/-- The Monday of the week containing `d` (`d - timedelta(days=d.weekday())`). -/
def mondayOf (d : Date) : Date := subDays d d.weekday

theorem rollToWeekAnchor_ord (now : Date) (a : String) (n : Option Int) (base : Date)
    (h : rollToWeekAnchor now a n = .ok base) (hord : 1 ≤ toOrdinal now) :
    ∃ j, toOrdinal base = toOrdinal now + j := by
  unfold rollToWeekAnchor at h
  by_cases h1 : pyUpper (if a = "" then "THIS_WEEK" else a) = "THIS_WEEK"
  · rw [if_pos h1] at h
    injection h with h
    exact ⟨0, by rw [← h]; omega⟩
  rw [if_neg h1] at h
  by_cases h2 : pyUpper (if a = "" then "THIS_WEEK" else a) = "NEXT_WEEK"
  · rw [if_pos h2] at h
    injection h with h
    exact ⟨7, by rw [← h, toOrdinal_addDays _ _ hord]⟩
  rw [if_neg h2] at h
  by_cases h3 : pyUpper (if a = "" then "THIS_WEEK" else a) = "AFTER_N_WEEK"
  · rw [if_pos h3] at h
    injection h with h
    exact ⟨7 * (match n with | none => (1 : Int) | some v => v).natAbs,
      by rw [← h, toOrdinal_addDays _ _ hord]⟩
  · rw [if_neg h3] at h
    exact absurd h (by simp)

theorem toWeekday_spec (base : Date) (wd : Nat) (hwd : wd < 7) (hord : 1 ≤ toOrdinal base) :
    toOrdinal (toWeekday base wd) = toOrdinal base - base.weekday + wd ∧
    (toWeekday base wd).weekday = wd ∧
    mondayOf (toWeekday base wd) = mondayOf base := by
  have hbw : base.weekday + 1 ≤ toOrdinal base := weekday_le_sub base hord
  have hsub : toOrdinal (subDays base base.weekday) = toOrdinal base - base.weekday :=
    toOrdinal_subDays _ _ hbw
  have hsubpos : 1 ≤ toOrdinal (subDays base base.weekday) := by omega
  have hadd : toOrdinal (toWeekday base wd) = toOrdinal base - base.weekday + wd := by
    unfold toWeekday
    rw [toOrdinal_addDays _ _ hsubpos, hsub]
  have hbwdef : base.weekday = (toOrdinal base + 6) % 7 := rfl
  have hwdeq : (toWeekday base wd).weekday = wd := by
    show (toOrdinal (toWeekday base wd) + 6) % 7 = wd
    rw [hadd]
    omega
  refine ⟨hadd, hwdeq, ?_⟩
  unfold mondayOf subDays
  rw [hwdeq, hadd]
  congr 1
  omega

/-- **C7**: the week tokens compute a week anchor (`THIS_WEEK` = anchor,
`NEXT_WEEK` = anchor + 7, `AFTER_N_WEEK` = anchor + 7·|n| with `n`
defaulting to 1); a present `weekday` field relocates the result to that
weekday inside the Monday-started week of the week-anchor date, and
`WEEKDAY_OF` with `anchor=NEXT_WEEK` and Monday's label, applied to a Monday
anchor, lands exactly 7 days (within the claimed 7–13) after the anchor. -/
theorem claim_C7_week_tokens (now : Date) (hv : now.valid) (k : Int)
    (tokR : DateToken) (wd : Nat) (base : Date)
    (htyR : normType tokR.type = "NEXT_WEEK" ∨ normType tokR.type = "AFTER_N_WEEK" ∨
      normType tokR.type = "THIS_WEEK")
    (hwkR : truthyS tokR.weekday = true)
    (hwdR : weekdayToNum (tokR.weekday.getD "") = .ok wd)
    (hbase : rollToWeekAnchor now (normType tokR.type) tokR.n = .ok base)
    (tokM : DateToken) (htyM : normType tokM.type = "WEEKDAY_OF")
    (hanchM : (if truthyS tokM.anchor then tokM.anchor.getD "" else "THIS_WEEK") =
      "NEXT_WEEK")
    (hwdM : weekdayToNum (tokM.weekday.getD "") = .ok 0)
    (hMon : now.weekday = 0) :
    resolveDateToken now { type := some "THIS_WEEK" } = .ok now ∧
    resolveDateToken now { type := some "NEXT_WEEK" } = .ok (addDays now 7) ∧
    resolveDateToken now { type := some "AFTER_N_WEEK", n := some k } =
      .ok (addDays now (7 * k.natAbs)) ∧
    resolveDateToken now { type := some "AFTER_N_WEEK" } = .ok (addDays now 7) ∧
    (resolveDateToken now tokR = .ok (toWeekday base wd) ∧
      (toWeekday base wd).weekday = wd ∧
      mondayOf (toWeekday base wd) = mondayOf base) ∧
    (resolveDateToken now tokM = .ok (toWeekday (addDays now 7) 0) ∧
      toOrdinal (toWeekday (addDays now 7) 0) = toOrdinal now + 7 ∧
      7 ≤ toOrdinal (toWeekday (addDays now 7) 0) - toOrdinal now ∧
      toOrdinal (toWeekday (addDays now 7) 0) - toOrdinal now ≤ 13) := by
  have hordnow : 1 ≤ toOrdinal now := toOrdinal_pos now hv
  have hwd7 : wd < 7 := weekdayToNum_lt7 _ _ hwdR
  have hbord : ∃ j, toOrdinal base = toOrdinal now + j :=
    rollToWeekAnchor_ord now _ tokR.n base hbase hordnow
  have hbpos : 1 ≤ toOrdinal base := by
    obtain ⟨j, hj⟩ := hbord
    omega
  have hspec := toWeekday_spec base wd hwd7 hbpos
  refine ⟨rfl, rfl, rfl, rfl, ⟨?_, hspec.2.1, hspec.2.2⟩, ?_⟩
  · -- relocation: push the resolver through the week branch
    unfold resolveDateToken
    rcases htyR with h | h | h <;>
      rw [h] <;>
      rw [if_neg (by decide), if_neg (by decide), if_neg (by decide),
        if_neg (by decide), if_neg (by decide), if_pos (by decide)] <;>
      rw [h] at hbase <;>
      rw [hbase] <;>
      dsimp only <;>
      rw [hwkR] <;>
      simp only [if_true] <;>
      rw [hwdR]
  · have hroll : rollToWeekAnchor now "NEXT_WEEK" tokM.n = .ok (addDays now 7) := rfl
    have hbw7 : (addDays now 7).weekday = 0 := by
      show (toOrdinal (addDays now 7) + 6) % 7 = 0
      rw [toOrdinal_addDays _ _ hordnow]
      have : now.weekday = (toOrdinal now + 6) % 7 := rfl
      omega
    have hord7 : toOrdinal (addDays now 7) = toOrdinal now + 7 :=
      toOrdinal_addDays _ _ hordnow
    have hspec2 := toWeekday_spec (addDays now 7) 0 (by omega) (by omega)
    have hordr : toOrdinal (toWeekday (addDays now 7) 0) = toOrdinal now + 7 := by
      rw [hspec2.1, hbw7, hord7]
      omega
    refine ⟨?_, hordr, by omega, by omega⟩
    unfold resolveDateToken
    rw [htyM]
    rw [if_neg (by decide), if_neg (by decide), if_neg (by decide),
      if_neg (by decide), if_neg (by decide), if_neg (by decide), if_pos (by decide)]
    rw [hwdM]
    dsimp only
    rw [hanchM, hroll]

/-- Witness for C7: anchor Monday `2024-01-15`, `k = -2`; relocation token
`NEXT_WEEK` with weekday `금` (Friday, 4); boundary token `WEEKDAY_OF`
`NEXT_WEEK`/`MON`. -/
theorem claim_C7_witness :
    resolveDateToken ⟨2024, 1, 15⟩ { type := some "THIS_WEEK" } = .ok ⟨2024, 1, 15⟩ ∧
    resolveDateToken ⟨2024, 1, 15⟩ { type := some "NEXT_WEEK" } =
      .ok (addDays ⟨2024, 1, 15⟩ 7) ∧
    resolveDateToken ⟨2024, 1, 15⟩ { type := some "AFTER_N_WEEK", n := some (-2) } =
      .ok (addDays ⟨2024, 1, 15⟩ (7 * Int.natAbs (-2))) ∧
    resolveDateToken ⟨2024, 1, 15⟩ { type := some "AFTER_N_WEEK" } =
      .ok (addDays ⟨2024, 1, 15⟩ 7) ∧
    (resolveDateToken ⟨2024, 1, 15⟩ { type := some "NEXT_WEEK", weekday := some "금" } =
      .ok (toWeekday (addDays ⟨2024, 1, 15⟩ 7) 4) ∧
      (toWeekday (addDays ⟨2024, 1, 15⟩ 7) 4).weekday = 4 ∧
      mondayOf (toWeekday (addDays ⟨2024, 1, 15⟩ 7) 4) =
        mondayOf (addDays ⟨2024, 1, 15⟩ 7)) ∧
    (resolveDateToken ⟨2024, 1, 15⟩
      { type := some "WEEKDAY_OF", anchor := some "NEXT_WEEK", weekday := some "MON" } =
      .ok (toWeekday (addDays ⟨2024, 1, 15⟩ 7) 0) ∧
      toOrdinal (toWeekday (addDays ⟨2024, 1, 15⟩ 7) 0) = toOrdinal ⟨2024, 1, 15⟩ + 7 ∧
      7 ≤ toOrdinal (toWeekday (addDays ⟨2024, 1, 15⟩ 7) 0) - toOrdinal ⟨2024, 1, 15⟩ ∧
      toOrdinal (toWeekday (addDays ⟨2024, 1, 15⟩ 7) 0) - toOrdinal ⟨2024, 1, 15⟩ ≤ 13) :=
  claim_C7_week_tokens ⟨2024, 1, 15⟩ (by decide) (-2)
    { type := some "NEXT_WEEK", weekday := some "금" } 4 (addDays ⟨2024, 1, 15⟩ 7)
    (Or.inl rfl) rfl rfl rfl
    { type := some "WEEKDAY_OF", anchor := some "NEXT_WEEK", weekday := some "MON" }
    rfl rfl rfl (by decide)

/-- **C8, counterexample**: the claim says every TOKEN-mode request whose
`time_token` carries an unrecognized type is rejected; but
`resolve_time_token` falls through to `return None` for an unknown type, so
this request with `time_token.type = "BOGUS"` is accepted and saved
(silently resolved with no time). -/
theorem claim_C8_counterexample :
    resolveTimeToken ⟨⟨2024, 1, 1⟩, 10, 0⟩ (some { type := some "BOGUS" }) = .ok none ∧
    (handleScheduleSave ⟨[], []⟩
      { content := "x",
        when := { mode := some "TOKEN",
                  date_token := some { type := some "AFTER_N_DAY", n := some 1 },
                  time_token := some { type := some "BOGUS" } } }
      ⟨⟨2024, 1, 1⟩, 10, 0⟩ 0 "T").1 =
      .saved ⟨"2024-01-02", "화", none, "x", "T"⟩ 1 1 := ⟨rfl, rfl⟩

/-- **C8, amended**: a TOKEN-mode request whose `date_token` type is outside
the recognized set is rejected with an error naming the unrecognized type;
a `time_token` with an unrecognized (non-empty) type is instead silently
resolved to "no time". -/
theorem claim_C8_unknown_token_type (now : Date) (nowT : DateTime)
    (tok : DateToken) (ttok : TimeToken)
    (hty : normType tok.type ≠ "" ∧ normType tok.type ≠ "THIS_MONTH" ∧
      normType tok.type ≠ "NEXT_MONTH" ∧ normType tok.type ≠ "SAME_MONTH_DATA" ∧
      normType tok.type ≠ "AFTER_N_DAY" ∧ normType tok.type ≠ "NEXT_WEEK" ∧
      normType tok.type ≠ "AFTER_N_WEEK" ∧ normType tok.type ≠ "THIS_WEEK" ∧
      normType tok.type ≠ "WEEKDAY_OF" ∧ normType tok.type ≠ "NTH_WEEKDAY_OF_MONTH" ∧
      normType tok.type ≠ "END_OF_MONTH" ∧ normType tok.type ≠ "BEGIN_OF_MONTH")
    (htty : normType ttok.type ≠ "" ∧ normType ttok.type ≠ "ABS" ∧
      normType ttok.type ≠ "SLOT" ∧ normType ttok.type ≠ "AFTER_N_HOUR") :
    resolveDateToken now tok = .error ("unknown date_token.type: " ++ normType tok.type) ∧
    resolveTimeToken nowT (some ttok) = .ok none := by
  obtain ⟨g0, g1, g2, g3, g4, g5, g6, g7, g8, g9, g10, g11⟩ := hty
  obtain ⟨t0, t1, t2, t3⟩ := htty
  constructor
  · unfold resolveDateToken
    rw [if_neg g0, if_neg g1, if_neg g2, if_neg g3, if_neg g4,
      if_neg (by simp [g5, g6, g7]), if_neg g8, if_neg g9, if_neg g10, if_neg g11]
  · unfold resolveTimeToken
    dsimp only
    rw [if_neg t0, if_neg t1, if_neg t2, if_neg t3]

/-- Witness for the amended C8 at types `"BOGUS"` / `"WHENEVER"`. -/
theorem claim_C8_witness :
    resolveDateToken ⟨2024, 1, 1⟩ { type := some "BOGUS" } =
      .error ("unknown date_token.type: " ++ normType (some "BOGUS")) ∧
    resolveTimeToken ⟨⟨2024, 1, 1⟩, 10, 0⟩ (some { type := some "WHENEVER" }) =
      .ok none :=
  claim_C8_unknown_token_type ⟨2024, 1, 1⟩ ⟨⟨2024, 1, 1⟩, 10, 0⟩
    { type := some "BOGUS" } { type := some "WHENEVER" } (by decide) (by decide)

theorem parseHHMM_bounds (s : String) (h m : Nat) (hp : parseHHMM s = some (h, m)) :
    h ≤ 23 ∧ m ≤ 59 := by
  unfold parseHHMM at hp
  rcases ht1 : take2Digits s.data with _ | ⟨hh, rest⟩ <;> rw [ht1] at hp <;> dsimp only at hp
  · exact absurd hp (by simp)
  rcases hr : rest with _ | ⟨c, rest2⟩ <;> rw [hr] at hp <;> dsimp only at hp
  · exact absurd hp (by simp)
  by_cases hc : c = ':'
  case neg => rw [if_neg hc] at hp; exact absurd hp (by simp)
  rw [if_pos hc] at hp
  rcases ht2 : take2Digits rest2 with _ | ⟨mm, rest3⟩ <;> rw [ht2] at hp <;> dsimp only at hp
  · exact absurd hp (by simp)
  rcases hr3 : rest3 with _ | ⟨c4, rest4⟩ <;> rw [hr3] at hp <;> dsimp only at hp
  on_goal 2 => exact absurd hp (by simp)
  by_cases hb : hh ≤ 23 ∧ mm ≤ 59
  · rw [if_pos hb] at hp
    simp only [Option.some.injEq, Prod.mk.injEq] at hp
    omega
  · rw [if_neg hb] at hp
    exact absurd hp (by simp)

theorem parseDateYMD_valid (s : String) (dt : Date)
    (h : parseDateYMD s = some dt) : dt.valid := by
  unfold parseDateYMD at h
  rcases hs : s.data with _ | ⟨y1, _ | ⟨y2, _ | ⟨y3, _ | ⟨y4, _ | ⟨c5, rest⟩⟩⟩⟩⟩ <;>
    rw [hs] at h <;> dsimp only at h
  · exact absurd h (by simp)
  · exact absurd h (by simp)
  · exact absurd h (by simp)
  · exact absurd h (by simp)
  · exact absurd h (by simp)
  by_cases hds : y1.isDigit = true ∧ y2.isDigit = true ∧ y3.isDigit = true ∧
      y4.isDigit = true ∧ c5 = '-'
  case neg => rw [if_neg hds] at h; exact absurd h (by simp)
  rw [if_pos hds] at h
  rcases ht1 : take2Digits rest with _ | ⟨m, rest'⟩ <;> rw [ht1] at h <;> dsimp only at h
  · exact absurd h (by simp)
  rcases hr' : rest' with _ | ⟨c6, rest2⟩ <;> rw [hr'] at h <;> dsimp only at h
  · exact absurd h (by simp)
  by_cases hc6 : c6 = '-'
  case neg => rw [if_neg hc6] at h; exact absurd h (by simp)
  rw [if_pos hc6] at h
  rcases ht2 : take2Digits rest2 with _ | ⟨dv, rest3⟩ <;> rw [ht2] at h <;> dsimp only at h
  · exact absurd h (by simp)
  rcases hr3 : rest3 with _ | ⟨c7, rest4⟩ <;> rw [hr3] at h <;> dsimp only at h
  on_goal 2 => exact absurd h (by simp)
  by_cases hcond : 1 ≤ 1000 * digitVal y1 + 100 * digitVal y2 + 10 * digitVal y3 +
      digitVal y4 ∧ 1 ≤ m ∧ m ≤ 12 ∧ 1 ≤ dv ∧
      dv ≤ daysInMonth (1000 * digitVal y1 + 100 * digitVal y2 + 10 * digitVal y3 +
        digitVal y4) m
  · rw [if_pos hcond] at h
    simp only [Option.some.injEq] at h
    rw [← h]
    exact ⟨hcond.1, hcond.2.1, hcond.2.2.1, hcond.2.2.2.1, hcond.2.2.2.2⟩
  · rw [if_neg hcond] at h
    exact absurd h (by simp)

set_option maxRecDepth 10000 in
theorem parseHHMM_formatHM : ∀ h < 24, ∀ m < 60,
    parseHHMM (formatHM h m) = some (h, m) := by
  decide

theorem replaceYMD_valid (x : Date) (y m : Nat) (d : Int) (r : Date)
    (h : replaceYMD x y m d = .ok r) : r.valid := by
  unfold replaceYMD at h
  by_cases hc : 1 ≤ y ∧ 1 ≤ m ∧ m ≤ 12 ∧ 1 ≤ d ∧ d ≤ (daysInMonth y m : Int)
  · rw [if_pos hc] at h
    injection h with h
    rw [← h]
    unfold Date.valid
    dsimp only
    refine ⟨hc.1, hc.2.1, hc.2.2.1, by omega, by omega⟩
  · rw [if_neg hc] at h
    exact absurd h (by simp)

theorem replaceDay_valid (x : Date) (d : Int) (r : Date)
    (hy : 1 ≤ x.year) (hm1 : 1 ≤ x.month) (hm2 : x.month ≤ 12)
    (h : replaceDay x d = .ok r) : r.valid := by
  unfold replaceDay at h
  by_cases hc : 1 ≤ d ∧ d ≤ (daysInMonth x.year x.month : Int)
  · rw [if_pos hc] at h
    injection h with h
    rw [← h]
    unfold Date.valid
    dsimp only
    refine ⟨hy, hm1, hm2, by omega, by omega⟩
  · rw [if_neg hc] at h
    exact absurd h (by simp)

theorem rollToWeekAnchor_valid (now : Date) (a : String) (n : Option Int) (base : Date)
    (h : rollToWeekAnchor now a n = .ok base) (hv : now.valid) : base.valid := by
  unfold rollToWeekAnchor at h
  by_cases h1 : pyUpper (if a = "" then "THIS_WEEK" else a) = "THIS_WEEK"
  · rw [if_pos h1] at h
    injection h with h
    exact h ▸ hv
  rw [if_neg h1] at h
  by_cases h2 : pyUpper (if a = "" then "THIS_WEEK" else a) = "NEXT_WEEK"
  · rw [if_pos h2] at h
    injection h with h
    exact h ▸ addDays_valid _ _ (toOrdinal_pos _ hv)
  rw [if_neg h2] at h
  by_cases h3 : pyUpper (if a = "" then "THIS_WEEK" else a) = "AFTER_N_WEEK"
  · rw [if_pos h3] at h
    injection h with h
    exact h ▸ addDays_valid _ _ (toOrdinal_pos _ hv)
  · rw [if_neg h3] at h
    exact absurd h (by simp)

theorem toWeekday_valid (base : Date) (wd : Nat) (hord : 1 ≤ toOrdinal base) :
    (toWeekday base wd).valid := by
  unfold toWeekday addDays
  apply ord2ymd_valid
  have hbw : base.weekday + 1 ≤ toOrdinal base := weekday_le_sub base hord
  have hsub : toOrdinal (subDays base base.weekday) = toOrdinal base - base.weekday :=
    toOrdinal_subDays _ _ hbw
  omega

/-- Every date produced by `resolve_date_token` from a valid anchor is a
valid calendar date (`datetime` guarantees this in the source by
construction and by raising on invalid `replace`). -/
theorem resolveDateToken_valid (now : Date) (tok : DateToken) (dt : Date)
    (hv : now.valid) (h : resolveDateToken now tok = .ok dt) : dt.valid := by
  obtain ⟨hy, hm1, hm2, hd1, hd2⟩ := hv
  unfold resolveDateToken at h
  by_cases c0 : normType tok.type = ""
  · rw [if_pos c0] at h
    exact absurd h (by simp)
  rw [if_neg c0] at h
  by_cases c1 : normType tok.type = "THIS_MONTH"
  · rw [if_pos c1] at h
    injection h with h
    by_cases ht : truthyI tok.day = true
    · rw [if_pos ht] at h
      rcases hrd : replaceDay now (tok.day.getD 0) with e | r <;> rw [hrd] at h <;>
        dsimp only at h
      · exact h ▸ ⟨hy, hm1, hm2, hd1, hd2⟩
      · exact h ▸ replaceDay_valid _ _ _ hy hm1 hm2 hrd
    · rw [if_neg ht] at h
      exact h ▸ ⟨hy, hm1, hm2, hd1, hd2⟩
  rw [if_neg c1] at h
  by_cases c2 : normType tok.type = "NEXT_MONTH"
  · rw [if_pos c2] at h
    exact replaceYMD_valid _ _ _ _ _ h
  rw [if_neg c2] at h
  by_cases c3 : normType tok.type = "SAME_MONTH_DATA"
  · rw [if_pos c3] at h
    rcases hday : tok.day with _ | d0 <;> rw [hday] at h <;> dsimp only at h
    · exact absurd h (by simp)
    · exact replaceDay_valid _ _ _ hy hm1 hm2 h
  rw [if_neg c3] at h
  by_cases c4 : normType tok.type = "AFTER_N_DAY"
  · rw [if_pos c4] at h
    injection h with h
    exact h ▸ addDays_valid _ _ (toOrdinal_pos _ ⟨hy, hm1, hm2, hd1, hd2⟩)
  rw [if_neg c4] at h
  by_cases c5 : normType tok.type = "NEXT_WEEK" ∨ normType tok.type = "AFTER_N_WEEK" ∨
      normType tok.type = "THIS_WEEK"
  · rw [if_pos c5] at h
    rcases hroll : rollToWeekAnchor now (normType tok.type) tok.n with e | base <;>
      rw [hroll] at h <;> dsimp only at h
    · exact absurd h (by simp)
    have hbvalid : base.valid :=
      rollToWeekAnchor_valid _ _ _ _ hroll ⟨hy, hm1, hm2, hd1, hd2⟩
    by_cases hw : truthyS tok.weekday = true
    · rw [if_pos hw] at h
      rcases hwd : weekdayToNum (tok.weekday.getD "") with e | wd <;> rw [hwd] at h <;>
        dsimp only at h
      · exact absurd h (by simp)
      · injection h with h
        exact h ▸ toWeekday_valid _ _ (toOrdinal_pos _ hbvalid)
    · rw [if_neg hw] at h
      injection h with h
      exact h ▸ hbvalid
  rw [if_neg c5] at h
  by_cases c6 : normType tok.type = "WEEKDAY_OF"
  · rw [if_pos c6] at h
    rcases hwd : weekdayToNum (tok.weekday.getD "") with e | wd <;> rw [hwd] at h <;>
      dsimp only at h
    · exact absurd h (by simp)
    rcases hroll : rollToWeekAnchor now
        (if truthyS tok.anchor then tok.anchor.getD "" else "THIS_WEEK") tok.n
      with e | base <;> rw [hroll] at h <;> dsimp only at h
    · exact absurd h (by simp)
    have hbvalid : base.valid :=
      rollToWeekAnchor_valid _ _ _ _ hroll ⟨hy, hm1, hm2, hd1, hd2⟩
    injection h with h
    exact h ▸ toWeekday_valid _ _ (toOrdinal_pos _ hbvalid)
  rw [if_neg c6] at h
  by_cases c7 : normType tok.type = "NTH_WEEKDAY_OF_MONTH"
  · rw [if_pos c7] at h
    rcases hn : (if truthyI tok.n then tok.n else tok.value) with _ | nv <;>
      rw [hn] at h <;> dsimp only at h
    · exact absurd h (by simp)
    rcases hwd : weekdayToNum (tok.weekday.getD "") with e | wd <;> rw [hwd] at h <;>
      dsimp only at h
    · exact absurd h (by simp)
    have hb := nextMonth_bounds now ⟨hy, hm1, hm2, hd1, hd2⟩
    by_cases ha : pyUpper (if truthyS tok.anchor then tok.anchor.getD "" else "THIS_MONTH") =
        "NEXT_MONTH"
    · rw [if_pos ha] at h
      unfold nthWeekdayOfMonth at h
      by_cases hover : nthWeekdayDay ⟨nextMonthY now, nextMonthM now, 1⟩ nv wd >
          (daysInMonth (⟨nextMonthY now, nextMonthM now, 1⟩ : Date).year
            (⟨nextMonthY now, nextMonthM now, 1⟩ : Date).month : Int)
      · rw [if_pos hover] at h
        exact absurd h (by simp)
      · rw [if_neg hover] at h
        exact replaceDay_valid _ _ _ hb.1 hb.2.1 hb.2.2 h
    · rw [if_neg ha] at h
      unfold nthWeekdayOfMonth at h
      by_cases hover : nthWeekdayDay ⟨now.year, now.month, 1⟩ nv wd >
          (daysInMonth (⟨now.year, now.month, 1⟩ : Date).year
            (⟨now.year, now.month, 1⟩ : Date).month : Int)
      · rw [if_pos hover] at h
        exact absurd h (by simp)
      · rw [if_neg hover] at h
        exact replaceDay_valid _ _ _ hy hm1 hm2 h
  rw [if_neg c7] at h
  by_cases c8 : normType tok.type = "END_OF_MONTH"
  · rw [if_pos c8] at h
    injection h with h
    rw [← h]
    unfold Date.valid
    dsimp only
    have := daysInMonth_pos now.year now.month hm1 hm2
    exact ⟨hy, hm1, hm2, by omega, by omega⟩
  rw [if_neg c8] at h
  by_cases c9 : normType tok.type = "BEGIN_OF_MONTH"
  · rw [if_pos c9] at h
    injection h with h
    rw [← h]
    unfold Date.valid
    dsimp only
    have := daysInMonth_pos now.year now.month hm1 hm2
    exact ⟨hy, hm1, hm2, by omega, by omega⟩
  · rw [if_neg c9] at h
    exact absurd h (by simp)

/-- Every time string produced by `resolve_time_token` parses as `HH:MM`
with hour in [0,23] and minute in [0,59]. -/
theorem resolveTimeToken_valid (nowT : DateTime) (tok : Option TimeToken) (ts : String)
    (hmin : nowT.minute ≤ 59) (h : resolveTimeToken nowT tok = .ok (some ts)) :
    ∃ hm : Nat × Nat, parseHHMM ts = some hm ∧ hm.1 ≤ 23 ∧ hm.2 ≤ 59 := by
  unfold resolveTimeToken at h
  rcases htok : tok with _ | tk <;> rw [htok] at h <;> dsimp only at h
  · exact absurd h (by simp)
  by_cases h0 : normType tk.type = ""
  · rw [if_pos h0] at h
    exact absurd h (by simp)
  rw [if_neg h0] at h
  by_cases habs : normType tk.type = "ABS"
  · rw [if_pos habs] at h
    by_cases hh : ensureHHMM (tk.value.getD "") = true
    · rw [if_pos hh] at h
      simp only [Except.ok.injEq, Option.some.injEq] at h
      unfold ensureHHMM at hh
      rcases hpm : parseHHMM (tk.value.getD "") with _ | v
      · rw [hpm] at hh
        cases hh
      · rcases v with ⟨vh, vm⟩
        have hb := parseHHMM_bounds _ _ _ hpm
        exact ⟨(vh, vm), h ▸ hpm, hb.1, hb.2⟩
    · rw [if_neg (by simpa using hh)] at h
      exact absurd h (by simp)
  rw [if_neg habs] at h
  by_cases hslot : normType tk.type = "SLOT"
  · rw [if_pos hslot] at h
    by_cases h1 : pyUpper (if truthyS tk.slot then tk.slot.getD "" else "") = "MORNING"
    · rw [if_pos h1] at h
      simp only [Except.ok.injEq, Option.some.injEq] at h
      exact ⟨(9, 0), h ▸ (by decide), by omega, by omega⟩
    rw [if_neg h1] at h
    by_cases h2 : pyUpper (if truthyS tk.slot then tk.slot.getD "" else "") = "AFTERNOON"
    · rw [if_pos h2] at h
      simp only [Except.ok.injEq, Option.some.injEq] at h
      exact ⟨(15, 0), h ▸ (by decide), by omega, by omega⟩
    rw [if_neg h2] at h
    by_cases h3 : pyUpper (if truthyS tk.slot then tk.slot.getD "" else "") = "EVENING"
    · rw [if_pos h3] at h
      simp only [Except.ok.injEq, Option.some.injEq] at h
      exact ⟨(19, 0), h ▸ (by decide), by omega, by omega⟩
    rw [if_neg h3] at h
    by_cases h4 : pyUpper (if truthyS tk.slot then tk.slot.getD "" else "") = "NIGHT"
    · rw [if_pos h4] at h
      simp only [Except.ok.injEq, Option.some.injEq] at h
      exact ⟨(21, 0), h ▸ (by decide), by omega, by omega⟩
    rw [if_neg h4] at h
    exact absurd h (by simp)
  rw [if_neg hslot] at h
  by_cases hhr : normType tk.type = "AFTER_N_HOUR"
  · rw [if_pos hhr] at h
    simp only [Except.ok.injEq, Option.some.injEq] at h
    refine ⟨((nowT.hour + (readNV tk.n tk.valueNum).natAbs) % 24, nowT.minute),
      h ▸ parseHHMM_formatHM _ (Nat.mod_lt _ (by omega)) _ (by omega), ?_, ?_⟩
    · have := Nat.mod_lt (nowT.hour + (readNV tk.n tk.valueNum).natAbs) (show 0 < 24 by omega)
      omega
    · exact hmin
  · rw [if_neg hhr] at h
    exact absurd h (by simp)

/-- Combined validity of resolution: the resolved date value is a valid
calendar date and the resolved time (if any) is a well-formed `HH:MM`. -/
theorem resolveWhen_props (mode : String) (w : WhenSpec) (nowT : DateTime)
    (d : String) (t : Option String) (dt : Date) (hv : nowT.valid)
    (h : resolveWhen mode w nowT = .ok (d, t, dt)) :
    dt.valid ∧ ∀ ts, t = some ts →
      ∃ hm : Nat × Nat, parseHHMM ts = some hm ∧ hm.1 ≤ 23 ∧ hm.2 ≤ 59 := by
  unfold resolveWhen at h
  by_cases hm : mode = "ABSOLUTE"
  · rw [if_pos hm] at h
    by_cases hd0 : pyStrip (w.date.getD "") = ""
    · rw [if_pos hd0] at h
      exact absurd h (by simp)
    rw [if_neg hd0] at h
    rcases hp : parseDateYMD (pyStrip (w.date.getD "")) with _ | dp <;> rw [hp] at h <;>
      dsimp only at h
    · exact absurd h (by simp)
    by_cases ht0 : pyStrip (w.time.getD "") = ""
    · rw [if_pos ht0] at h
      simp only [Except.ok.injEq, Prod.mk.injEq] at h
      obtain ⟨_, htt, hdd⟩ := h
      refine ⟨hdd ▸ parseDateYMD_valid _ _ hp, ?_⟩
      intro ts hts
      rw [← htt] at hts
      cases hts
    · rw [if_neg ht0] at h
      by_cases hhv : ensureHHMM (pyStrip (w.time.getD "")) = true
      · rw [if_pos hhv] at h
        simp only [Except.ok.injEq, Prod.mk.injEq] at h
        obtain ⟨_, htt, hdd⟩ := h
        refine ⟨hdd ▸ parseDateYMD_valid _ _ hp, ?_⟩
        intro ts hts
        rw [← htt] at hts
        injection hts with hts
        unfold ensureHHMM at hhv
        rcases hpm : parseHHMM (pyStrip (w.time.getD "")) with _ | v
        · rw [hpm] at hhv
          cases hhv
        · rcases v with ⟨vh, vm⟩
          have hb := parseHHMM_bounds _ _ _ hpm
          exact ⟨(vh, vm), hts ▸ hpm, hb.1, hb.2⟩
      · rw [if_neg (by simpa using hhv)] at h
        exact absurd h (by simp)
  · rw [if_neg hm] at h
    rcases hdt : resolveDateToken nowT.date (w.date_token.getD {}) with e | dp <;>
      rw [hdt] at h <;> dsimp only at h
    · exact absurd h (by simp)
    rcases htt : resolveTimeToken nowT w.time_token with e | tv <;> rw [htt] at h <;>
      dsimp only at h
    · exact absurd h (by simp)
    simp only [Except.ok.injEq, Prod.mk.injEq] at h
    obtain ⟨_, htv, hdd⟩ := h
    refine ⟨hdd ▸ resolveDateToken_valid _ _ _ hv.1 hdt, ?_⟩
    intro ts hts
    rw [← htv] at hts
    subst hts
    exact resolveTimeToken_valid nowT w.time_token ts hv.2.2 htt

/-- The data invariant of a stored schedule row: its `date` renders a valid
calendar date, its `day_of_week` is the Korean weekday label of that same
date (0=Monday..6=Sunday indexing), its `time` (when present) is a
well-formed `HH:MM` with hour in [0,23] and minute in [0,59], and its
content is non-empty and stable under trimming. -/
def Schedule.wf (s : Schedule) : Prop :=
  (∃ dt : Date, dt.valid ∧ s.date = toDateString dt ∧ s.day_of_week = weekdayKo dt) ∧
  (∀ ts, s.time = some ts →
    ∃ p : Nat × Nat, parseHHMM ts = some p ∧ p.1 ≤ 23 ∧ p.2 ≤ 59) ∧
  pyStrip s.content = s.content ∧ s.content ≠ ""

/-- C9: every schedule handed to the persistence store satisfies the data
invariant: its date is a valid calendar date, its time, when present, is an
`HH:MM` string with hour in [0,23] and minute in [0,59], its content is
non-empty after trimming, and its `day_of_week` is the weekday label
consistent with its date (0=Monday..6=Sunday indexing). -/
theorem claim_C9_store_invariant (st : ServerState) (a : SaveArgs) (now : DateTime)
    (nowTs : ℚ) (createdAt : String) (s : Schedule) (rid tot : Nat) (st' : ServerState)
    (hv : now.valid)
    (h : handleScheduleSave st a now nowTs createdAt = (.saved s rid tot, st')) :
    s.wf ∧ st'.schedules = st.schedules ++ [s] := by
  unfold handleScheduleSave at h
  by_cases hc : pyStrip a.content = "" ∨ ¬ a.whenIsDict
  · rw [if_pos hc] at h
    exact absurd h (by simp)
  rw [if_neg hc] at h
  push_neg at hc
  by_cases hmm : modeOf a.when ≠ "ABSOLUTE" ∧ modeOf a.when ≠ "TOKEN"
  · rw [if_pos hmm] at h
    exact absurd h (by simp)
  rw [if_neg hmm] at h
  rcases hres : resolveWhen (modeOf a.when) a.when now with e | dtt
  · rw [hres] at h
    dsimp only at h
    exact absurd h (by simp)
  rcases dtt with ⟨d, t, dt⟩
  rw [hres] at h
  dsimp only at h
  by_cases hdup : (isDuplicate st.recentKeys
      (dedupKey a.idempotency_key (makeFingerprint (pyStrip a.content) d t))
      nowTs).1.1 = true
  · rw [if_pos hdup] at h
    exact absurd h (by simp)
  · rw [if_neg hdup] at h
    simp only [Prod.mk.injEq, SaveOutcome.saved.injEq] at h
    obtain ⟨⟨hs, _, _⟩, hst⟩ := h
    have hprops := resolveWhen_props (modeOf a.when) a.when now d t dt hv hres
    subst hs
    subst hst
    exact ⟨⟨⟨dt, hprops.1, rfl, rfl⟩, fun ts hts => hprops.2 ts hts,
      pyStrip_idem _, hc.1⟩, rfl⟩

/-- Witness for C9: a concrete ABSOLUTE-mode request is accepted and the
stored row satisfies the invariant. -/
theorem claim_C9_witness :
    handleScheduleSave (⟨[], []⟩ : ServerState)
      { content := " hi ", whenIsDict := true,
        when := { mode := some "ABSOLUTE", date := some "2024-05-01",
                  time := some "09:30" },
        idempotency_key := none }
      ⟨⟨2024, 1, 1⟩, 0, 0⟩ 0 "2026-01-01" =
      (.saved { date := toDateString ⟨2024, 5, 1⟩, day_of_week := weekdayKo ⟨2024, 5, 1⟩,
                time := some "09:30", content := "hi", created_at := "2026-01-01" } 1 1,
       ⟨[("hi|2024-05-01|09:30", 0)],
        [{ date := toDateString ⟨2024, 5, 1⟩, day_of_week := weekdayKo ⟨2024, 5, 1⟩,
           time := some "09:30", content := "hi", created_at := "2026-01-01" }]⟩) ∧
    Schedule.wf { date := toDateString ⟨2024, 5, 1⟩, day_of_week := weekdayKo ⟨2024, 5, 1⟩,
                  time := some "09:30", content := "hi", created_at := "2026-01-01" } ∧
    ([{ date := toDateString ⟨2024, 5, 1⟩, day_of_week := weekdayKo ⟨2024, 5, 1⟩,
        time := some "09:30", content := "hi", created_at := "2026-01-01" }] :
      List Schedule) =
      [] ++ [{ date := toDateString ⟨2024, 5, 1⟩, day_of_week := weekdayKo ⟨2024, 5, 1⟩,
               time := some "09:30", content := "hi", created_at := "2026-01-01" }] := by
  have h : handleScheduleSave (⟨[], []⟩ : ServerState)
      { content := " hi ", whenIsDict := true,
        when := { mode := some "ABSOLUTE", date := some "2024-05-01",
                  time := some "09:30" },
        idempotency_key := none }
      ⟨⟨2024, 1, 1⟩, 0, 0⟩ 0 "2026-01-01" =
      (.saved { date := toDateString ⟨2024, 5, 1⟩, day_of_week := weekdayKo ⟨2024, 5, 1⟩,
                time := some "09:30", content := "hi", created_at := "2026-01-01" } 1 1,
       ⟨[("hi|2024-05-01|09:30", 0)],
        [{ date := toDateString ⟨2024, 5, 1⟩, day_of_week := weekdayKo ⟨2024, 5, 1⟩,
           time := some "09:30", content := "hi", created_at := "2026-01-01" }]⟩) := rfl
  exact ⟨h, (claim_C9_store_invariant _ _ _ _ _ _ 1 1 _ (by decide) h).1,
    (claim_C9_store_invariant _ _ _ _ _ _ 1 1 _ (by decide) h).2⟩

end ScheduleSave
